import Mathlib

/-!
Verification of the Notebook-PDF document-ingestion server.

The development shallowly embeds the two JavaScript sources of the
repository (the Express server in src/server/index.js and the Drive sync
module bundled with it) as pure Lean functions.  External collaborators
(pdf-parse, the Gemini endpoint, axios/cheerio, the Google Drive API) are
passed in as oracle functions; the filesystem and the in-memory result map
are explicit association lists keyed by path / document name.
-/

namespace NotebookPDF

/-! ## JavaScript string primitives -/

/-- Model of the JS call `s.substring(0, n)`: the first `n` characters of
`s` (all of `s` when it is shorter). -/
def jsSubstring (s : String) (n : Nat) : String :=
  ⟨s.data.take n⟩

/-- Model of Node `path.basename(p)`: the last path segment, ignoring
trailing separators. -/
def basename (p : String) : String :=
  let noTrail := p.data.reverse.dropWhile (fun c => c = '/')
  match noTrail with
  | [] => if p.data.isEmpty then "" else "/"
  | cs => ⟨(cs.takeWhile (fun c => c != '/')).reverse⟩

/-- Model of Node `path.extname(p)`: the extension of the last path
segment, from the last dot to the end, empty when the last segment has no
dot, starts with its only dot (dotfile), or is exactly `..`. -/
def extname (p : String) : String :=
  let b := (basename p).data
  let afterDotRev := b.reverse.takeWhile (fun c => c != '.')
  if afterDotRev.length + 1 < b.length ∧ b ≠ ['.', '.'] then
    ⟨b.drop (b.length - afterDotRev.length - 1)⟩
  else ""

/-- Model of Node `path.basename(p, suffixToStrip)`: the last path segment
with the given extension removed when it is a proper trailing suffix. -/
def basenameStrip (p : String) (suffixToStrip : String) : String :=
  let b := basename p
  if suffixToStrip ≠ "" ∧ suffixToStrip ≠ b ∧
      b.data.reverse.take suffixToStrip.data.length
        = suffixToStrip.data.reverse then
    ⟨b.data.take (b.length - suffixToStrip.length)⟩
  else b

/-- Whitespace class used by the JS regex `\s` on the characters that can
realistically occur in extracted body text. -/
def isJsSpace (c : Char) : Bool :=
  c == ' ' || c == '\t' || c == '\n' || c == '\r' ||
  c == Char.ofNat 11 || c == Char.ofNat 12

/-- Helper for `collapseWs`: the flag records whether the previous kept
character position was inside a whitespace run. -/
def collapseWsAux : List Char → Bool → List Char
  | [], _ => []
  | c :: rest, prevWs =>
    if isJsSpace c then
      if prevWs then collapseWsAux rest true
      else ' ' :: collapseWsAux rest true
    else c :: collapseWsAux rest false

/-- Model of the JS call `s.replace(/\s+/g, ' ')`: every maximal
whitespace run becomes a single space. -/
def collapseWs (s : String) : String :=
  ⟨collapseWsAux s.data false⟩

/-- Model of the JS call `s.trim()`. -/
def jsTrim (s : String) : String :=
  ⟨((s.data.dropWhile isJsSpace).reverse.dropWhile isJsSpace).reverse⟩

/-! ## Association lists (JS objects used as maps) -/

/-- Lookup of a key in a JS object modelled as an association list. -/
def lookupA {α : Type} : List (String × α) → String → Option α
  | [], _ => none
  | (k0, v) :: rest, k => if k0 = k then some v else lookupA rest k

/-- Assignment `m[k] = v` on a JS object: replaces the first binding of
`k`, appends a new binding when `k` is absent. -/
def updateA {α : Type} : List (String × α) → String → α → List (String × α)
  | [], k, v => [(k, v)]
  | (k0, v0) :: rest, k, v =>
    if k0 = k then (k, v) :: rest else (k0, v0) :: updateA rest k v

/-- The JS `delete m[k]` operation: removes every binding of `k`. -/
def removeA {α : Type} : List (String × α) → String → List (String × α)
  | [], _ => []
  | (k0, v0) :: rest, k =>
    if k0 = k then removeA rest k else (k0, v0) :: removeA rest k

/-- The guarded deletion pattern `if (m[k]) delete m[k]` /
`if (fs.existsSync(p)) fs.unlinkSync(p)` used by the delete handler. -/
def removeIfPresent {α : Type} (m : List (String × α)) (k : String) :
    List (String × α) :=
  if (lookupA m k).isSome then removeA m k else m

/-- Number of bindings of key `k` in the association list. -/
def countKey {α : Type} : List (String × α) → String → Nat
  | [], _ => 0
  | (k0, _) :: rest, k => (if k0 = k then 1 else 0) + countKey rest k

/-- Number of occurrences of a concrete element in a list. -/
def countElem {α : Type} [DecidableEq α] : List α → α → Nat
  | [], _ => 0
  | x :: rest, a => (if x = a then 1 else 0) + countElem rest a

/-! ## Data model -/

/-- A Document Record as assembled by `processPDF` / `processURL` and
serialized into the sidecar cache file.  The `type` field is `some "url"`
for URL-derived records and absent (`none`) for file-derived ones. -/
structure DocRecord where
  name : String
  timestamp : Nat
  textPreview : String
  analysis : String
  type : Option String
deriving DecidableEq, Repr

/-- Content of a file on disk, as far as the server inspects it:
`jsonRecord r` is a byte string that `JSON.parse` turns into the Document
Record `r`; `corrupt` is any byte string on which `JSON.parse` throws;
`pdfBytes` is a raw source document fed to the pdf extractor. -/
inductive Bytes where
  | jsonRecord (r : DocRecord)
  | corrupt
  | pdfBytes (content : String)
deriving DecidableEq, Repr

/-- The mutable server state: the in-memory `processedFiles` map and the
data-directory filesystem, both as association lists. -/
structure ServerState where
  processedFiles : List (String × DocRecord)
  fs : List (String × Bytes)
deriving DecidableEq, Repr

/-- The environment variables the embedded code branches on. -/
structure Env where
  GEMINI_API_KEY : Option String
  DRIVE_FOLDER_ID : Option String
deriving DecidableEq, Repr

/-- Result of one `processPDF` / `processURL` invocation: the new server
state plus the observable external calls (pdf/HTML extractions, Gemini
calls with the prompts sent, Drive uploads attempted). -/
structure ProcOut where
  st : ServerState
  extractionCalls : Nat
  aiCalls : Nat
  promptsSent : List String
  driveUploads : List String
deriving DecidableEq, Repr

/-! ## Analysis (Gemini) -/

/-- The fixed part of the five-section prompt template of `processPDF`,
up to and including the Text Content heading. -/
def pdfPromptHeader : String :=
  "\nAnalyze the following text from a notebook or document PDF. Provide a comprehensive and detailed analysis.\n\n**Output Structure:**\n\n1.  **Executive Summary**: A concise paragraph summarizing the main topic and purpose of the document.\n2.  **Detailed Key Points**: A bulleted list of the most important information, facts, or arguments presented. Be specific.\n3.  **Action Items & Deadlines**: Extract any tasks, calls to action, or specific dates/deadlines mentioned. If none, state \"None identified.\"\n4.  **Technical/Medical Terminology**: If the text contains specialized terms (medical, legal, technical), list and briefly define them based on context.\n5.  **Unresolved Questions**: Identify any questions raised in the text that remain unanswered or require follow-up.\n\n**Text Content:**\n"

/-- The prompt `processPDF` interpolates the truncated text into. -/
def pdfPrompt (content : String) : String :=
  pdfPromptHeader ++ content ++ "\n"

/-- The fixed parts of the prompt template of `processURL`; the URL is
interpolated between them. -/
def urlPromptHeaderA : String :=
  "\nAnalyze the following text from a website ("

def urlPromptHeaderB : String :=
  "). Provide a comprehensive and detailed analysis.\n\n**Output Structure:**\n\n1.  **Executive Summary**: A concise paragraph summarizing the main topic and purpose of the web page.\n2.  **Detailed Key Points**: A bulleted list of the most important information, facts, or arguments presented. Be specific.\n3.  **Action Items & Deadlines**: Extract any tasks, calls to action, or specific dates/deadlines mentioned. If none, state \"None identified.\"\n4.  **Technical/Medical Terminology**: If the text contains specialized terms (medical, legal, technical), list and briefly define them based on context.\n5.  **Unresolved Questions**: Identify any questions raised in the text that remain unanswered or require follow-up.\n\n**Text Content:**\n"

/-- The prompt `processURL` interpolates the URL and truncated text into. -/
def urlPrompt (url : String) (content : String) : String :=
  urlPromptHeaderA ++ url ++ urlPromptHeaderB ++ content ++ "\n"

/-- The literal placeholder stored when no Gemini key is configured. -/
def missingKeyMsg : String :=
  "API Key missing. Please add GEMINI_API_KEY to .env file."

/-- The Gemini block shared verbatim by `processPDF` and `processURL`
(index.js lines 229-255 and 312-337): starting from
`analysis = "Analysis pending or failed."`, if a key is configured the
prompt is sent (`aiGenerate` models `model.generateContent`; a thrown
error becomes the embedded-message placeholder), otherwise the fixed
missing-key placeholder is used and no call is made.  Returns the
analysis string, the number of Gemini calls, and the prompts sent. -/
def generateAnalysis (apiKey : Option String)
    (aiGenerate : String → Except String String) (prompt : String) :
    String × Nat × List String :=
  match apiKey with
  | some _ =>
    match aiGenerate prompt with
    | .ok a => (a, 1, [prompt])
    | .error e => ("Error generating AI analysis: " ++ e, 1, [prompt])
  | none => (missingKeyMsg, 0, [])

/-! ## The Orchestrator: processPDF and processURL -/

/-- The body of `processPDF` after the sidecar-cache check (index.js
lines 221-285).  `pdfExtract` models `pdf(dataBuffer)` and may throw; a
missing source file makes `fs.readFileSync` throw before any extraction;
both throws land in the outer catch which only logs. -/
def processPDFBody (filePath : String) (env : Env)
    (pdfExtract : Bytes → Except String String)
    (aiGenerate : String → Except String String)
    (now : Nat) (st : ServerState) : ProcOut :=
  let fileName := basename filePath
  let jsonPath := filePath ++ ".json"
  match lookupA st.fs filePath with
  | none =>
    { st := st, extractionCalls := 0, aiCalls := 0, promptsSent := [],
      driveUploads := [] }
  | some dataBuffer =>
    match pdfExtract dataBuffer with
    | .error _ =>
      { st := st, extractionCalls := 1, aiCalls := 0, promptsSent := [],
        driveUploads := [] }
    | .ok text =>
      let gen := generateAnalysis env.GEMINI_API_KEY aiGenerate
        (pdfPrompt (jsSubstring text 20000))
      let resultData : DocRecord :=
        { name := fileName, timestamp := now,
          textPreview := jsSubstring text 200 ++ "...",
          analysis := gen.1, type := none }
      { st :=
          { processedFiles := updateA st.processedFiles fileName resultData,
            fs := updateA st.fs jsonPath (Bytes.jsonRecord resultData) },
        extractionCalls := 1, aiCalls := gen.2.1, promptsSent := gen.2.2,
        driveUploads :=
          if env.DRIVE_FOLDER_ID.isSome then [jsonPath] else [] }

/-- `processPDF(filePath)` (index.js lines 205-285): checks the sidecar
cache file `filePath + ".json"` first; a parseable cache is loaded into
the in-memory map under the file basename and processing stops; a cache
whose parse throws is logged and falls through to full processing, as
does an absent cache. -/
def processPDF (filePath : String) (env : Env)
    (pdfExtract : Bytes → Except String String)
    (aiGenerate : String → Except String String)
    (now : Nat) (st : ServerState) : ProcOut :=
  let fileName := basename filePath
  let jsonPath := filePath ++ ".json"
  match lookupA st.fs jsonPath with
  | some (Bytes.jsonRecord cachedData) =>
    { st :=
        { st with
          processedFiles := updateA st.processedFiles fileName cachedData },
      extractionCalls := 0, aiCalls := 0, promptsSent := [],
      driveUploads := [] }
  | some _ => processPDFBody filePath env pdfExtract aiGenerate now st
  | none => processPDFBody filePath env pdfExtract aiGenerate now st

/-- `processURL(url)` (index.js lines 288-353): fetches the page
(`fetchPage` models `axios.get`; a throw is rethrown to the caller),
strips the DOM down to body text (`domBodyText` models the cheerio
pipeline), collapses whitespace and trims, runs the Gemini block, and
stores the record in the in-memory map keyed by the URL with
`type = "url"`.  No file is read or written. -/
def processURL (url : String) (env : Env)
    (fetchPage : String → Except String String)
    (domBodyText : String → String)
    (aiGenerate : String → Except String String)
    (now : Nat) (st : ServerState) : Except String ProcOut :=
  match fetchPage url with
  | .error e => .error e
  | .ok html =>
    let text := jsTrim (collapseWs (domBodyText html))
    let gen := generateAnalysis env.GEMINI_API_KEY aiGenerate
      (urlPrompt url (jsSubstring text 20000))
    .ok
      { st :=
          { st with
            processedFiles := updateA st.processedFiles url
              { name := url, timestamp := now,
                textPreview := jsSubstring text 200 ++ "...",
                analysis := gen.1, type := some "url" } },
        extractionCalls := 1, aiCalls := gen.2.1, promptsSent := gen.2.2,
        driveUploads := [] }

/-- The `resultData` object `processPDF` builds after a successful
extraction, as a standalone definition for use in lemma statements. -/
def pdfResultRecord (filePath : String) (env : Env)
    (aiGenerate : String → Except String String) (now : Nat)
    (text : String) : DocRecord :=
  { name := basename filePath, timestamp := now,
    textPreview := jsSubstring text 200 ++ "...",
    analysis := (generateAnalysis env.GEMINI_API_KEY aiGenerate
      (pdfPrompt (jsSubstring text 20000))).1,
    type := none }

/-- The record `processURL` builds after a successful fetch, as a
standalone definition for use in lemma statements. -/
def urlResultRecord (url : String) (env : Env)
    (aiGenerate : String → Except String String) (now : Nat)
    (text : String) : DocRecord :=
  { name := url, timestamp := now,
    textPreview := jsSubstring text 200 ++ "...",
    analysis := (generateAnalysis env.GEMINI_API_KEY aiGenerate
      (urlPrompt url (jsSubstring text 20000))).1,
    type := some "url" }

/-! ## Remote sync (driveSync.js) -/

/-- One entry of the Drive listing, with the fields the sync requests
(`files(id, name, modifiedTime, mimeType)`). -/
structure RemoteFile where
  id : String
  name : String
  modifiedTime : String
deriving DecidableEq, Repr

/-- One value of the Download Ledger (`downloaded_files.json`). -/
structure LedgerEntry where
  name : String
  downloadedAt : String
  driveModifiedTime : String
deriving DecidableEq, Repr

/-- The Download Ledger: remote file identifier to entry. -/
abbrev Ledger := List (String × LedgerEntry)

/-- Observable outcome of the download loop of `syncDriveFiles`: the
in-memory ledger at the end, the successful downloads as
(identifier, destination path) pairs in order, the identifiers for which
a download was attempted, and `newFilesCount`. -/
structure SyncLoopOut where
  ledger : Ledger
  downloads : List (String × String)
  attempts : List String
  newFilesCount : Nat
deriving DecidableEq, Repr

/-- The `for (const file of files)` loop of `syncDriveFiles` (driveSync.js
lines 566-586): a file whose id is already in the ledger is skipped;
otherwise a download to `downloadDir/<name>` is attempted (`dlOk` models
whether `downloadFile` resolves), on success the ledger gains the entry
`{name, downloadedAt, driveModifiedTime}` and the counter increments, on
failure the error is logged and the loop continues. -/
def syncLoop (downloadDir : String) (dlOk : String → Bool) (now : String) :
    List RemoteFile → Ledger → SyncLoopOut
  | [], led =>
    { ledger := led, downloads := [], attempts := [], newFilesCount := 0 }
  | f :: rest, led =>
    if (lookupA led f.id).isSome then
      syncLoop downloadDir dlOk now rest led
    else
      let destPath := downloadDir ++ "/" ++ f.name
      if dlOk f.id then
        let led' := updateA led f.id
          { name := f.name, downloadedAt := now,
            driveModifiedTime := f.modifiedTime }
        let out := syncLoop downloadDir dlOk now rest led'
        { ledger := out.ledger,
          downloads := (f.id, destPath) :: out.downloads,
          attempts := f.id :: out.attempts,
          newFilesCount := out.newFilesCount + 1 }
      else
        let out := syncLoop downloadDir dlOk now rest led
        { out with attempts := f.id :: out.attempts }

/-- Observable outcome of one `syncDriveFiles` call: whether the primary
filtered listing was issued, whether the empty-result diagnostic cascade
ran, the downloads and attempts, how many times the ledger file was
written, and the ledger file content afterwards (`none` = file absent). -/
structure SyncResult where
  listedPrimary : Bool
  diagnosticsRun : Bool
  downloads : List (String × String)
  attempts : List String
  ledgerWrites : Nat
  ledgerOnDisk : Option Ledger
deriving DecidableEq, Repr

/-- `syncDriveFiles(folderId, downloadDir)` (driveSync.js lines 499-601).
An empty `folderId` is a logged no-op before anything happens.  `listing`
models authenticate + `drive.files.list` with the PDF/JSON filter: a
throw lands in the outer catch, which only logs.  An empty listing runs
the advisory diagnostic cascade and returns.  Otherwise the ledger file
is read (`ledger0 = none` models an absent file, read as `{}`), the
download loop runs, and the ledger file is rewritten once at the end iff
at least one new file was downloaded. -/
def syncDriveFiles (folderId : String) (downloadDir : String)
    (listing : Except String (List RemoteFile)) (dlOk : String → Bool)
    (ledger0 : Option Ledger) (now : String) : SyncResult :=
  if folderId = "" then
    { listedPrimary := false, diagnosticsRun := false, downloads := [],
      attempts := [], ledgerWrites := 0, ledgerOnDisk := ledger0 }
  else
    match listing with
    | .error _ =>
      { listedPrimary := true, diagnosticsRun := false, downloads := [],
        attempts := [], ledgerWrites := 0, ledgerOnDisk := ledger0 }
    | .ok files =>
      if files.isEmpty then
        { listedPrimary := true, diagnosticsRun := true, downloads := [],
          attempts := [], ledgerWrites := 0, ledgerOnDisk := ledger0 }
      else
        let downloaded := ledger0.getD []
        let out := syncLoop downloadDir dlOk now files downloaded
        if out.newFilesCount > 0 then
          { listedPrimary := true, diagnosticsRun := false,
            downloads := out.downloads, attempts := out.attempts,
            ledgerWrites := 1, ledgerOnDisk := some out.ledger }
        else
          { listedPrimary := true, diagnosticsRun := false,
            downloads := out.downloads, attempts := out.attempts,
            ledgerWrites := 0, ledgerOnDisk := ledger0 }

/-! ## uploadSummaryToDrive -/

/-- The request `drive.files.create` receives from
`uploadSummaryToDrive`: metadata plus the plain-text body. -/
structure DriveFileCreate where
  name : String
  parents : List String
  mimeType : String
  body : String
deriving DecidableEq, Repr

/-- `uploadSummaryToDrive(folderId, originalFileName, analysisText)`
(driveSync.js lines 603-641): throws on a missing folder id, derives
the summary filename by stripping the original extension and appending
the fixed `_notebook_summary.txt` suffix, and creates exactly one
plain-text Drive file with the analysis text as body.  `createFile`
models `drive.files.create`; its throw is rethrown.  The returned list
holds the remote entries created by the call. -/
def uploadSummaryToDrive (folderId : String) (originalFileName : String)
    (analysisText : String)
    (createFile : DriveFileCreate → Except String Unit) :
    Except String (List DriveFileCreate) :=
  if folderId = "" then .error "Drive Folder ID not provided"
  else
    let baseName := basenameStrip originalFileName (extname originalFileName)
    let summaryFileName := baseName ++ "_notebook_summary.txt"
    let req : DriveFileCreate :=
      { name := summaryFileName, parents := [folderId],
        mimeType := "text/plain", body := analysisText }
    match createFile req with
    | .ok _ => .ok [req]
    | .error e => .error e

/-! ## Credential loader (authenticate) -/

/-- The Drive scope requested by the current driveSync.js revision. -/
def SCOPES : List String := ["https://www.googleapis.com/auth/drive.file"]

/-- The key-file fallback path `path.join(__dirname, '../google-credentials.json')`. -/
def CREDENTIALS_PATH : String := "../google-credentials.json"

/-- The options object handed to `new google.auth.GoogleAuth(...)`;
the parsed credentials object is abstracted to its source string. -/
structure AuthOptions where
  scopes : List String
  credentials : Option String
  keyFile : Option String
deriving DecidableEq, Repr

/-- The client handle `auth.getClient()` resolves to, carrying the
configuration it was constructed from. -/
structure GoogleAuthClient where
  options : AuthOptions
deriving DecidableEq, Repr

/-- Result of `authenticate()`: the client handle (always produced) and
whether a credential-parse failure was logged. -/
structure AuthOut where
  client : GoogleAuthClient
  parseErrorLogged : Bool
deriving DecidableEq, Repr

/-- `authenticate()` (driveSync.js lines 445-465): when the
`GOOGLE_CREDENTIALS_JSON` environment variable is set, `JSON.parse` it
(`jsonParse` models the parse; a throw is caught and logged, leaving
`authOptions` with neither `credentials` nor `keyFile`); when it is
absent, fall back to the local key file.  A client is returned in every
case. -/
def authenticate (googleCredentialsJson : Option String)
    (jsonParse : String → Except String String) : AuthOut :=
  let base : AuthOptions :=
    { scopes := SCOPES, credentials := none, keyFile := none }
  match googleCredentialsJson with
  | some blob =>
    match jsonParse blob with
    | .ok credentials =>
      { client := { options := { base with credentials := some credentials } },
        parseErrorLogged := false }
    | .error _ =>
      { client := { options := base }, parseErrorLogged := true }
  | none =>
    { client := { options := { base with keyFile := some CREDENTIALS_PATH } },
      parseErrorLogged := false }

/-! ## DELETE /api/results/:filename -/

/-- Response and effects of the delete endpoint. -/
structure DeleteOut where
  st : ServerState
  status : Nat
  success : Bool
  message : String
  driveDeletes : List String
deriving DecidableEq, Repr

/-- The handler of `DELETE /api/results/:filename` (index.js lines
59-88): removes the in-memory entry if present, unlinks the local source
and sidecar files if they exist, and, when `DRIVE_FOLDER_ID` is set,
issues `deleteFileFromDrive` for the filename and for
`filename + ".json"` (`deleteFromDrive` models it; a throw is caught and
answered with HTTP 500).  On the happy path it answers HTTP 200 with
`success: true`; there is no existence check anywhere. -/
def deleteHandler (filename : String) (dataDir : String) (env : Env)
    (deleteFromDrive : String → Except String Bool)
    (st : ServerState) : DeleteOut :=
  let st1 : ServerState :=
    { st with processedFiles := removeIfPresent st.processedFiles filename }
  let pdfPath := dataDir ++ "/" ++ filename
  let jsonPath := dataDir ++ "/" ++ (filename ++ ".json")
  let st2 : ServerState :=
    { st1 with fs := removeIfPresent (removeIfPresent st1.fs pdfPath) jsonPath }
  match env.DRIVE_FOLDER_ID with
  | some _ =>
    match deleteFromDrive filename with
    | .error e =>
      { st := st2, status := 500, success := false,
        message := "Error deleting file: " ++ e,
        driveDeletes := [filename] }
    | .ok _ =>
      match deleteFromDrive (filename ++ ".json") with
      | .error e =>
        { st := st2, status := 500, success := false,
          message := "Error deleting file: " ++ e,
          driveDeletes := [filename, filename ++ ".json"] }
      | .ok _ =>
        { st := st2, status := 200, success := true,
          message := filename ++ " deleted",
          driveDeletes := [filename, filename ++ ".json"] }
  | none =>
    { st := st2, status := 200, success := true,
      message := filename ++ " deleted", driveDeletes := [] }

/-! ## Basic lemmas about the primitives -/

theorem take_of_length_le' {α : Type} :
    ∀ (l : List α) (n : Nat), l.length ≤ n → l.take n = l := by
  intro l
  induction l with
  | nil => intro n _; simp
  | cons x xs ih =>
    intro n h
    cases n with
    | zero => simp at h
    | succ m =>
      simp only [List.take_succ_cons]
      rw [ih m (by simpa using h)]

theorem jsSubstring_of_length_le (s : String) (n : Nat)
    (h : s.length ≤ n) : jsSubstring s n = s := by
  unfold jsSubstring
  rw [take_of_length_le' s.data n h]

theorem lookupA_updateA_self {α : Type} (m : List (String × α)) (k : String)
    (v : α) : lookupA (updateA m k v) k = some v := by
  induction m with
  | nil => simp [updateA, lookupA]
  | cons p rest ih =>
    obtain ⟨k0, v0⟩ := p
    by_cases h : k0 = k
    · simp [updateA, h, lookupA]
    · simp [updateA, h, lookupA, ih]

theorem lookupA_updateA_ne {α : Type} (m : List (String × α)) (k j : String)
    (v : α) (h : j ≠ k) : lookupA (updateA m k v) j = lookupA m j := by
  have hkj : ¬k = j := Ne.symm h
  induction m with
  | nil => simp [updateA, lookupA, hkj]
  | cons p rest ih =>
    obtain ⟨k0, v0⟩ := p
    by_cases hk : k0 = k
    · subst hk
      simp [updateA, lookupA, hkj]
    · simp [updateA, hk, lookupA, ih]

theorem lookupA_removeA {α : Type} (m : List (String × α)) (k j : String) :
    lookupA (removeA m k) j = if j = k then none else lookupA m j := by
  induction m with
  | nil => simp [removeA, lookupA]
  | cons p rest ih =>
    obtain ⟨k0, v0⟩ := p
    by_cases hk : k0 = k
    · subst hk
      by_cases hj : j = k0
      · subst hj
        simp [removeA, lookupA] at ih ⊢
        exact ih
      · have hj' : ¬k0 = j := Ne.symm hj
        simp [removeA, lookupA, hj, hj'] at ih ⊢
        exact ih
    · by_cases hj : k0 = j
      · subst hj
        simp [removeA, hk, lookupA]
      · simp [removeA, hk, lookupA, hj, ih]

theorem lookupA_removeIfPresent_self {α : Type} (m : List (String × α))
    (k : String) : lookupA (removeIfPresent m k) k = none := by
  unfold removeIfPresent
  cases h : lookupA m k with
  | none => simp [h]
  | some v => simp [h, lookupA_removeA]

theorem lookupA_removeIfPresent_none {α : Type} (m : List (String × α))
    (k j : String) (h : lookupA m j = none) :
    lookupA (removeIfPresent m k) j = none := by
  unfold removeIfPresent
  cases hk : lookupA m k with
  | none => simp [h]
  | some v =>
    by_cases hj : j = k
    · simp [lookupA_removeA, hj]
    · simp [lookupA_removeA, hj, h]

theorem countKey_eq_zero_of_lookupA_none {α : Type}
    (m : List (String × α)) (k : String) (h : lookupA m k = none) :
    countKey m k = 0 := by
  induction m with
  | nil => simp [countKey]
  | cons p rest ih =>
    obtain ⟨k0, v0⟩ := p
    by_cases hk : k0 = k
    · simp [lookupA, hk] at h
    · simp [lookupA, hk] at h
      simp [countKey, hk, ih h]

theorem countKey_updateA_ne {α : Type} (m : List (String × α))
    (k j : String) (v : α) (h : j ≠ k) :
    countKey (updateA m k v) j = countKey m j := by
  have hkj : ¬k = j := Ne.symm h
  induction m with
  | nil => simp [updateA, countKey, hkj]
  | cons p rest ih =>
    obtain ⟨k0, v0⟩ := p
    by_cases hk : k0 = k
    · subst hk
      simp [updateA, countKey]
    · simp [updateA, hk, countKey, ih]

theorem countKey_updateA_none {α : Type} (m : List (String × α))
    (k : String) (v : α) (h : lookupA m k = none) :
    countKey (updateA m k v) k = 1 := by
  induction m with
  | nil => simp [updateA, countKey]
  | cons p rest ih =>
    obtain ⟨k0, v0⟩ := p
    by_cases hk : k0 = k
    · simp [lookupA, hk] at h
    · simp [lookupA, hk] at h
      simp [updateA, hk, countKey, ih h]

theorem updateA_updateA_same {α : Type} (m : List (String × α))
    (k : String) (v : α) : updateA (updateA m k v) k v = updateA m k v := by
  induction m with
  | nil => simp [updateA]
  | cons p rest ih =>
    obtain ⟨k0, v0⟩ := p
    by_cases hk : k0 = k
    · simp [updateA, hk]
    · simp [updateA, hk, ih]

theorem countElem_eq_zero_of_countKey_eq_zero {α : Type} [DecidableEq α]
    (l : List (String × α)) (k : String) (x : α)
    (h : countKey l k = 0) : countElem l (k, x) = 0 := by
  induction l with
  | nil => simp [countElem]
  | cons p rest ih =>
    obtain ⟨k0, v0⟩ := p
    by_cases hk : k0 = k
    · simp [countKey, hk] at h
    · simp [countKey, hk] at h
      have hne : (k0, v0) ≠ (k, x) := by
        intro hh
        exact hk (congrArg Prod.fst hh)
      simp [countElem, hne, ih h]

theorem countKey_ne_nil_of_eq_one {α : Type} (l : List (String × α))
    (k : String) (h : countKey l k = 1) : l ≠ [] := by
  intro hnil
  subst hnil
  simp [countKey] at h

/-! ## Lemmas about the sync download loop -/

theorem syncLoop_newFilesCount (dd : String) (ok : String → Bool)
    (now : String) :
    ∀ (files : List RemoteFile) (led : Ledger),
      (syncLoop dd ok now files led).newFilesCount =
        (syncLoop dd ok now files led).downloads.length := by
  intro files
  induction files with
  | nil => intro led; simp [syncLoop]
  | cons f rest ih =>
    intro led
    cases hl : lookupA led f.id with
    | some e0 => simp [syncLoop, hl, ih]
    | none =>
      cases hok : ok f.id with
      | true => simp [syncLoop, hl, hok, ih]
      | false => simp [syncLoop, hl, hok, ih]

theorem syncLoop_ledger_lookup_of_some (dd : String) (ok : String → Bool)
    (now : String) (id : String) (e : LedgerEntry) :
    ∀ (files : List RemoteFile) (led : Ledger),
      lookupA led id = some e →
      lookupA (syncLoop dd ok now files led).ledger id = some e := by
  intro files
  induction files with
  | nil => intro led he; simpa [syncLoop] using he
  | cons f rest ih =>
    intro led he
    cases hl : lookupA led f.id with
    | some e0 => simpa [syncLoop, hl] using ih led he
    | none =>
      have hne : id ≠ f.id := by
        intro hh
        rw [hh, hl] at he
        simp at he
      cases hok : ok f.id with
      | false => simpa [syncLoop, hl, hok] using ih led he
      | true =>
        have he' : lookupA (updateA led f.id
            { name := f.name, downloadedAt := now,
              driveModifiedTime := f.modifiedTime }) id = some e := by
          rw [lookupA_updateA_ne _ _ _ _ hne]
          exact he
        simpa [syncLoop, hl, hok] using ih _ he'

theorem syncLoop_ledger_countKey_of_isSome (dd : String) (ok : String → Bool)
    (now : String) (id : String) :
    ∀ (files : List RemoteFile) (led : Ledger),
      (lookupA led id).isSome →
      countKey (syncLoop dd ok now files led).ledger id = countKey led id := by
  intro files
  induction files with
  | nil => intro led _; simp [syncLoop]
  | cons f rest ih =>
    intro led he
    cases hl : lookupA led f.id with
    | some e0 => simpa [syncLoop, hl] using ih led he
    | none =>
      have hne : id ≠ f.id := by
        intro hh
        rw [hh, hl] at he
        simp at he
      cases hok : ok f.id with
      | false => simpa [syncLoop, hl, hok] using ih led he
      | true =>
        have he' : (lookupA (updateA led f.id
            { name := f.name, downloadedAt := now,
              driveModifiedTime := f.modifiedTime }) id).isSome := by
          rw [lookupA_updateA_ne _ _ _ _ hne]
          exact he
        have := ih _ he'
        rw [countKey_updateA_ne _ _ _ _ hne] at this
        simpa [syncLoop, hl, hok] using this

theorem syncLoop_downloads_countKey_of_isSome (dd : String)
    (ok : String → Bool) (now : String) (id : String) :
    ∀ (files : List RemoteFile) (led : Ledger),
      (lookupA led id).isSome →
      countKey (syncLoop dd ok now files led).downloads id = 0 := by
  intro files
  induction files with
  | nil => intro led _; simp [syncLoop, countKey]
  | cons f rest ih =>
    intro led he
    cases hl : lookupA led f.id with
    | some e0 => simpa [syncLoop, hl] using ih led he
    | none =>
      have hne : id ≠ f.id := by
        intro hh
        rw [hh, hl] at he
        simp at he
      cases hok : ok f.id with
      | false => simpa [syncLoop, hl, hok] using ih led he
      | true =>
        have he' : (lookupA (updateA led f.id
            { name := f.name, downloadedAt := now,
              driveModifiedTime := f.modifiedTime }) id).isSome := by
          rw [lookupA_updateA_ne _ _ _ _ hne]
          exact he
        have hfne : ¬f.id = id := fun hh => hne hh.symm
        simp [syncLoop, hl, hok, countKey, hfne, ih _ he']

theorem syncLoop_attempts_of_isSome (dd : String) (ok : String → Bool)
    (now : String) (id : String) :
    ∀ (files : List RemoteFile) (led : Ledger),
      (lookupA led id).isSome →
      id ∉ (syncLoop dd ok now files led).attempts := by
  intro files
  induction files with
  | nil => intro led _; simp [syncLoop]
  | cons f rest ih =>
    intro led he
    cases hl : lookupA led f.id with
    | some e0 => simpa [syncLoop, hl] using ih led he
    | none =>
      have hne : id ≠ f.id := by
        intro hh
        rw [hh, hl] at he
        simp at he
      cases hok : ok f.id with
      | false => simp [syncLoop, hl, hok, hne, ih led he]
      | true =>
        have he' : (lookupA (updateA led f.id
            { name := f.name, downloadedAt := now,
              driveModifiedTime := f.modifiedTime }) id).isSome := by
          rw [lookupA_updateA_ne _ _ _ _ hne]
          exact he
        simp [syncLoop, hl, hok, hne, ih _ he']

theorem syncLoop_ledger_lookup_of_dlOk_false (dd : String)
    (ok : String → Bool) (now : String) (id : String) (hid : ok id = false) :
    ∀ (files : List RemoteFile) (led : Ledger),
      lookupA (syncLoop dd ok now files led).ledger id = lookupA led id := by
  intro files
  induction files with
  | nil => intro led; simp [syncLoop]
  | cons f rest ih =>
    intro led
    cases hl : lookupA led f.id with
    | some e0 => simpa [syncLoop, hl] using ih led
    | none =>
      cases hok : ok f.id with
      | false => simpa [syncLoop, hl, hok] using ih led
      | true =>
        have hne : id ≠ f.id := by
          intro hh
          rw [hh, hok] at hid
          simp at hid
        have := ih (updateA led f.id
          { name := f.name, downloadedAt := now,
            driveModifiedTime := f.modifiedTime })
        rw [lookupA_updateA_ne _ _ _ _ hne] at this
        simpa [syncLoop, hl, hok] using this

theorem syncLoop_downloads_countKey_of_dlOk_false (dd : String)
    (ok : String → Bool) (now : String) (id : String) (hid : ok id = false) :
    ∀ (files : List RemoteFile) (led : Ledger),
      countKey (syncLoop dd ok now files led).downloads id = 0 := by
  intro files
  induction files with
  | nil => intro led; simp [syncLoop, countKey]
  | cons f rest ih =>
    intro led
    cases hl : lookupA led f.id with
    | some e0 => simpa [syncLoop, hl] using ih led
    | none =>
      cases hok : ok f.id with
      | false => simpa [syncLoop, hl, hok] using ih led
      | true =>
        have hfne : ¬f.id = id := by
          intro hh
          rw [← hh, hok] at hid
          simp at hid
        simp [syncLoop, hl, hok, countKey, hfne, ih]

theorem syncLoop_attempts_of_dlOk_false (dd : String) (ok : String → Bool)
    (now : String) :
    ∀ (files : List RemoteFile) (led : Ledger) (f : RemoteFile),
      f ∈ files → lookupA led f.id = none → ok f.id = false →
      f.id ∈ (syncLoop dd ok now files led).attempts := by
  intro files
  induction files with
  | nil => intro led f hmem; simp at hmem
  | cons g rest ih =>
    intro led f hmem hnone hok
    rcases List.mem_cons.mp hmem with hfg | hfr
    · subst hfg
      simp [syncLoop, hnone, hok]
    · cases hl : lookupA led g.id with
      | some e0 => simpa [syncLoop, hl] using ih led f hfr hnone hok
      | none =>
        cases hgk : ok g.id with
        | false =>
          simp [syncLoop, hl, hgk]
          exact Or.inr (ih led f hfr hnone hok)
        | true =>
          have hne : f.id ≠ g.id := by
            intro hh
            rw [hh, hgk] at hok
            simp at hok
          have hnone' : lookupA (updateA led g.id
              { name := g.name, downloadedAt := now,
                driveModifiedTime := g.modifiedTime }) f.id = none := by
            rw [lookupA_updateA_ne _ _ _ _ hne]
            exact hnone
          simp [syncLoop, hl, hgk]
          exact Or.inr (ih _ f hfr hnone' hok)

theorem syncLoop_fresh_ledger_lookup (dd : String) (ok : String → Bool)
    (now : String) :
    ∀ (files : List RemoteFile) (led : Ledger) (f : RemoteFile),
      (files.map RemoteFile.id).Nodup → f ∈ files →
      lookupA led f.id = none → ok f.id = true →
      lookupA (syncLoop dd ok now files led).ledger f.id =
        some { name := f.name, downloadedAt := now,
               driveModifiedTime := f.modifiedTime } := by
  intro files
  induction files with
  | nil => intro led f _ hmem; simp at hmem
  | cons g rest ih =>
    intro led f hnd hmem hnone hok
    have hnd2 : g.id ∉ rest.map RemoteFile.id ∧
        (rest.map RemoteFile.id).Nodup := by
      simpa [List.map_cons, List.nodup_cons] using hnd
    rcases List.mem_cons.mp hmem with hfg | hfr
    · subst hfg
      have hself := lookupA_updateA_self led f.id
        { name := f.name, downloadedAt := now,
          driveModifiedTime := f.modifiedTime }
      simpa [syncLoop, hnone, hok] using
        syncLoop_ledger_lookup_of_some dd ok now f.id _ rest _ hself
    · have hne : f.id ≠ g.id := by
        intro hh
        exact hnd2.1 (hh ▸ List.mem_map_of_mem RemoteFile.id hfr)
      cases hl : lookupA led g.id with
      | some e0 => simpa [syncLoop, hl] using ih led f hnd2.2 hfr hnone hok
      | none =>
        cases hgk : ok g.id with
        | false =>
          simpa [syncLoop, hl, hgk] using ih led f hnd2.2 hfr hnone hok
        | true =>
          have hnone' : lookupA (updateA led g.id
              { name := g.name, downloadedAt := now,
                driveModifiedTime := g.modifiedTime }) f.id = none := by
            rw [lookupA_updateA_ne _ _ _ _ hne]
            exact hnone
          simpa [syncLoop, hl, hgk] using ih _ f hnd2.2 hfr hnone' hok

theorem syncLoop_fresh_ledger_countKey (dd : String) (ok : String → Bool)
    (now : String) :
    ∀ (files : List RemoteFile) (led : Ledger) (f : RemoteFile),
      (files.map RemoteFile.id).Nodup → f ∈ files →
      lookupA led f.id = none → ok f.id = true →
      countKey (syncLoop dd ok now files led).ledger f.id = 1 := by
  intro files
  induction files with
  | nil => intro led f _ hmem; simp at hmem
  | cons g rest ih =>
    intro led f hnd hmem hnone hok
    have hnd2 : g.id ∉ rest.map RemoteFile.id ∧
        (rest.map RemoteFile.id).Nodup := by
      simpa [List.map_cons, List.nodup_cons] using hnd
    rcases List.mem_cons.mp hmem with hfg | hfr
    · subst hfg
      have hself := lookupA_updateA_self led f.id
        { name := f.name, downloadedAt := now,
          driveModifiedTime := f.modifiedTime }
      have hcnt := syncLoop_ledger_countKey_of_isSome dd ok now f.id rest
        (updateA led f.id
          { name := f.name, downloadedAt := now,
            driveModifiedTime := f.modifiedTime })
        (by rw [hself]; rfl)
      rw [countKey_updateA_none led f.id _ hnone] at hcnt
      simpa [syncLoop, hnone, hok] using hcnt
    · have hne : f.id ≠ g.id := by
        intro hh
        exact hnd2.1 (hh ▸ List.mem_map_of_mem RemoteFile.id hfr)
      cases hl : lookupA led g.id with
      | some e0 => simpa [syncLoop, hl] using ih led f hnd2.2 hfr hnone hok
      | none =>
        cases hgk : ok g.id with
        | false =>
          simpa [syncLoop, hl, hgk] using ih led f hnd2.2 hfr hnone hok
        | true =>
          have hnone' : lookupA (updateA led g.id
              { name := g.name, downloadedAt := now,
                driveModifiedTime := g.modifiedTime }) f.id = none := by
            rw [lookupA_updateA_ne _ _ _ _ hne]
            exact hnone
          simpa [syncLoop, hl, hgk] using ih _ f hnd2.2 hfr hnone' hok

theorem syncLoop_fresh_downloads_countKey (dd : String) (ok : String → Bool)
    (now : String) :
    ∀ (files : List RemoteFile) (led : Ledger) (f : RemoteFile),
      (files.map RemoteFile.id).Nodup → f ∈ files →
      lookupA led f.id = none → ok f.id = true →
      countKey (syncLoop dd ok now files led).downloads f.id = 1 := by
  intro files
  induction files with
  | nil => intro led f _ hmem; simp at hmem
  | cons g rest ih =>
    intro led f hnd hmem hnone hok
    have hnd2 : g.id ∉ rest.map RemoteFile.id ∧
        (rest.map RemoteFile.id).Nodup := by
      simpa [List.map_cons, List.nodup_cons] using hnd
    rcases List.mem_cons.mp hmem with hfg | hfr
    · subst hfg
      have hself := lookupA_updateA_self led f.id
        { name := f.name, downloadedAt := now,
          driveModifiedTime := f.modifiedTime }
      have hz := syncLoop_downloads_countKey_of_isSome dd ok now f.id rest
        (updateA led f.id
          { name := f.name, downloadedAt := now,
            driveModifiedTime := f.modifiedTime })
        (by rw [hself]; rfl)
      simp [syncLoop, hnone, hok, countKey, hz]
    · have hne : f.id ≠ g.id := by
        intro hh
        exact hnd2.1 (hh ▸ List.mem_map_of_mem RemoteFile.id hfr)
      cases hl : lookupA led g.id with
      | some e0 => simpa [syncLoop, hl] using ih led f hnd2.2 hfr hnone hok
      | none =>
        cases hgk : ok g.id with
        | false =>
          simpa [syncLoop, hl, hgk] using ih led f hnd2.2 hfr hnone hok
        | true =>
          have hnone' : lookupA (updateA led g.id
              { name := g.name, downloadedAt := now,
                driveModifiedTime := g.modifiedTime }) f.id = none := by
            rw [lookupA_updateA_ne _ _ _ _ hne]
            exact hnone
          have hgne : ¬g.id = f.id := fun hh => hne hh.symm
          simp [syncLoop, hl, hgk, countKey, hgne,
            ih _ f hnd2.2 hfr hnone' hok]

theorem syncLoop_fresh_downloads_countElem (dd : String) (ok : String → Bool)
    (now : String) :
    ∀ (files : List RemoteFile) (led : Ledger) (f : RemoteFile),
      (files.map RemoteFile.id).Nodup → f ∈ files →
      lookupA led f.id = none → ok f.id = true →
      countElem (syncLoop dd ok now files led).downloads
        (f.id, dd ++ "/" ++ f.name) = 1 := by
  intro files
  induction files with
  | nil => intro led f _ hmem; simp at hmem
  | cons g rest ih =>
    intro led f hnd hmem hnone hok
    have hnd2 : g.id ∉ rest.map RemoteFile.id ∧
        (rest.map RemoteFile.id).Nodup := by
      simpa [List.map_cons, List.nodup_cons] using hnd
    rcases List.mem_cons.mp hmem with hfg | hfr
    · subst hfg
      have hself := lookupA_updateA_self led f.id
        { name := f.name, downloadedAt := now,
          driveModifiedTime := f.modifiedTime }
      have hz := syncLoop_downloads_countKey_of_isSome dd ok now f.id rest
        (updateA led f.id
          { name := f.name, downloadedAt := now,
            driveModifiedTime := f.modifiedTime })
        (by rw [hself]; rfl)
      have hz' := countElem_eq_zero_of_countKey_eq_zero _ f.id
        (dd ++ "/" ++ f.name) hz
      simp [syncLoop, hnone, hok, countElem, hz']
    · have hne : f.id ≠ g.id := by
        intro hh
        exact hnd2.1 (hh ▸ List.mem_map_of_mem RemoteFile.id hfr)
      cases hl : lookupA led g.id with
      | some e0 => simpa [syncLoop, hl] using ih led f hnd2.2 hfr hnone hok
      | none =>
        cases hgk : ok g.id with
        | false =>
          simpa [syncLoop, hl, hgk] using ih led f hnd2.2 hfr hnone hok
        | true =>
          have hnone' : lookupA (updateA led g.id
              { name := g.name, downloadedAt := now,
                driveModifiedTime := g.modifiedTime }) f.id = none := by
            rw [lookupA_updateA_ne _ _ _ _ hne]
            exact hnone
          have hpne : (g.id, dd ++ "/" ++ g.name) ≠
              (f.id, dd ++ "/" ++ f.name) := by
            intro hh
            exact hne (congrArg Prod.fst hh).symm
          simp [syncLoop, hl, hgk, countElem, hpne,
            ih _ f hnd2.2 hfr hnone' hok]

theorem syncDriveFiles_run_eq (folderId dd : String)
    (files : List RemoteFile) (dlOk : String → Bool)
    (led0opt : Option Ledger) (now : String)
    (hfolder : ¬folderId = "") (hne : files ≠ []) :
    syncDriveFiles folderId dd (.ok files) dlOk led0opt now =
      if (syncLoop dd dlOk now files (led0opt.getD [])).newFilesCount > 0 then
        { listedPrimary := true, diagnosticsRun := false,
          downloads := (syncLoop dd dlOk now files (led0opt.getD [])).downloads,
          attempts := (syncLoop dd dlOk now files (led0opt.getD [])).attempts,
          ledgerWrites := 1,
          ledgerOnDisk :=
            some (syncLoop dd dlOk now files (led0opt.getD [])).ledger }
      else
        { listedPrimary := true, diagnosticsRun := false,
          downloads := (syncLoop dd dlOk now files (led0opt.getD [])).downloads,
          attempts := (syncLoop dd dlOk now files (led0opt.getD [])).attempts,
          ledgerWrites := 0, ledgerOnDisk := led0opt } := by
  unfold syncDriveFiles
  cases files with
  | nil => exact absurd rfl hne
  | cons f rest => simp [hfolder, List.isEmpty]

theorem syncDriveFiles_downloads_eq (folderId dd : String)
    (files : List RemoteFile) (dlOk : String → Bool)
    (led0opt : Option Ledger) (now : String)
    (hfolder : ¬folderId = "") (hne : files ≠ []) :
    (syncDriveFiles folderId dd (.ok files) dlOk led0opt now).downloads =
      (syncLoop dd dlOk now files (led0opt.getD [])).downloads := by
  rw [syncDriveFiles_run_eq folderId dd files dlOk led0opt now hfolder hne]
  by_cases h : (syncLoop dd dlOk now files (led0opt.getD [])).newFilesCount > 0
  · simp [h]
  · simp [h]

theorem syncDriveFiles_attempts_eq (folderId dd : String)
    (files : List RemoteFile) (dlOk : String → Bool)
    (led0opt : Option Ledger) (now : String)
    (hfolder : ¬folderId = "") (hne : files ≠ []) :
    (syncDriveFiles folderId dd (.ok files) dlOk led0opt now).attempts =
      (syncLoop dd dlOk now files (led0opt.getD [])).attempts := by
  rw [syncDriveFiles_run_eq folderId dd files dlOk led0opt now hfolder hne]
  by_cases h : (syncLoop dd dlOk now files (led0opt.getD [])).newFilesCount > 0
  · simp [h]
  · simp [h]

/-! ## Claim theorems: remote sync -/

/-- Claim C2: in a sync call, a listed entry whose identifier is already
in the Download Ledger is downloaded zero times regardless of its remote
modification time; an entry with a fresh identifier is downloaded exactly
once to `localDir/<entry.name>` and exactly one ledger entry
`{name, downloadedAt, driveModifiedTime}` is added for it; a per-file
download failure is logged, the remaining entries are still processed
(the attempt is recorded), and no ledger entry is added for the failed
file. -/
theorem C2_sync_download_dedup (folderId downloadDir : String)
    (files : List RemoteFile) (dlOk : String → Bool) (led0 : Ledger)
    (now : String)
    (hfolder : ¬folderId = "")
    (hids : (files.map RemoteFile.id).Nodup) :
    (∀ f ∈ files, (lookupA led0 f.id).isSome →
      countKey (syncDriveFiles folderId downloadDir (.ok files) dlOk
        (some led0) now).downloads f.id = 0) ∧
    (∀ f ∈ files, lookupA led0 f.id = none → dlOk f.id = true →
      countElem (syncDriveFiles folderId downloadDir (.ok files) dlOk
          (some led0) now).downloads (f.id, downloadDir ++ "/" ++ f.name) = 1 ∧
      countKey (syncDriveFiles folderId downloadDir (.ok files) dlOk
          (some led0) now).downloads f.id = 1 ∧
      ∃ led, (syncDriveFiles folderId downloadDir (.ok files) dlOk
          (some led0) now).ledgerOnDisk = some led ∧
        lookupA led f.id =
          some { name := f.name, downloadedAt := now,
                 driveModifiedTime := f.modifiedTime } ∧
        countKey led f.id = 1) ∧
    (∀ f ∈ files, lookupA led0 f.id = none → dlOk f.id = false →
      f.id ∈ (syncDriveFiles folderId downloadDir (.ok files) dlOk
          (some led0) now).attempts ∧
      countKey (syncDriveFiles folderId downloadDir (.ok files) dlOk
          (some led0) now).downloads f.id = 0 ∧
      ∀ led, (syncDriveFiles folderId downloadDir (.ok files) dlOk
          (some led0) now).ledgerOnDisk = some led →
        lookupA led f.id = none) := by
  refine ⟨?_, ?_, ?_⟩
  · intro f hf hsome
    have hne : files ≠ [] := List.ne_nil_of_mem hf
    rw [syncDriveFiles_downloads_eq folderId downloadDir files dlOk
      (some led0) now hfolder hne]
    exact syncLoop_downloads_countKey_of_isSome downloadDir dlOk now
      f.id files led0 hsome
  · intro f hf hnone hok
    have hne : files ≠ [] := List.ne_nil_of_mem hf
    have h1 := syncLoop_fresh_downloads_countElem downloadDir dlOk now
      files led0 f hids hf hnone hok
    have h2 := syncLoop_fresh_downloads_countKey downloadDir dlOk now
      files led0 f hids hf hnone hok
    have h3 := syncLoop_fresh_ledger_lookup downloadDir dlOk now
      files led0 f hids hf hnone hok
    have h4 := syncLoop_fresh_ledger_countKey downloadDir dlOk now
      files led0 f hids hf hnone hok
    have hdl := syncDriveFiles_downloads_eq folderId downloadDir files dlOk
      (some led0) now hfolder hne
    have hpos : (syncLoop downloadDir dlOk now files led0).newFilesCount > 0 := by
      rw [syncLoop_newFilesCount]
      exact List.length_pos.mpr (countKey_ne_nil_of_eq_one _ _ h2)
    have hrun := syncDriveFiles_run_eq folderId downloadDir files dlOk
      (some led0) now hfolder hne
    simp only [Option.getD_some] at hrun hdl
    rw [if_pos hpos] at hrun
    refine ⟨?_, ?_, ?_⟩
    · rw [hdl]; exact h1
    · rw [hdl]; exact h2
    · refine ⟨(syncLoop downloadDir dlOk now files led0).ledger, ?_, h3, h4⟩
      rw [hrun]
  · intro f hf hnone hbad
    have hne : files ≠ [] := List.ne_nil_of_mem hf
    have hat := syncLoop_attempts_of_dlOk_false downloadDir dlOk now
      files led0 f hf hnone hbad
    have hdl0 := syncLoop_downloads_countKey_of_dlOk_false downloadDir dlOk
      now f.id hbad files led0
    have hled := syncLoop_ledger_lookup_of_dlOk_false downloadDir dlOk now
      f.id hbad files led0
    have hrun := syncDriveFiles_run_eq folderId downloadDir files dlOk
      (some led0) now hfolder hne
    simp only [Option.getD_some] at hrun
    refine ⟨?_, ?_, ?_⟩
    · rw [syncDriveFiles_attempts_eq folderId downloadDir files dlOk
        (some led0) now hfolder hne]
      exact hat
    · rw [syncDriveFiles_downloads_eq folderId downloadDir files dlOk
        (some led0) now hfolder hne]
      exact hdl0
    · intro led hledeq
      rw [hrun] at hledeq
      by_cases hpos :
          (syncLoop downloadDir dlOk now files led0).newFilesCount > 0
      · rw [if_pos hpos] at hledeq
        simp only at hledeq
        have : (syncLoop downloadDir dlOk now files led0).ledger = led :=
          Option.some.inj hledeq
        rw [← this, hled]
        exact hnone
      · rw [if_neg hpos] at hledeq
        simp only at hledeq
        have : led0 = led := Option.some.inj hledeq
        rw [← this]
        exact hnone

/-- Concrete instantiation of C2: folder `F`, listing with one already
recorded identifier `X`, one fresh downloadable identifier `Y`, and one
fresh failing identifier `Z`. -/
theorem C2_sync_download_dedup_witness :
    countKey (syncDriveFiles "F" "/data"
      (.ok [⟨"X", "a.pdf", "t1"⟩, ⟨"Y", "b.pdf", "t2"⟩, ⟨"Z", "c.pdf", "t3"⟩])
      (fun id => id != "Z")
      (some [("X", ⟨"a.pdf", "t0", "tm"⟩)]) "now1").downloads "X" = 0 ∧
    countElem (syncDriveFiles "F" "/data"
      (.ok [⟨"X", "a.pdf", "t1"⟩, ⟨"Y", "b.pdf", "t2"⟩, ⟨"Z", "c.pdf", "t3"⟩])
      (fun id => id != "Z")
      (some [("X", ⟨"a.pdf", "t0", "tm"⟩)]) "now1").downloads
      ("Y", "/data/b.pdf") = 1 ∧
    "Z" ∈ (syncDriveFiles "F" "/data"
      (.ok [⟨"X", "a.pdf", "t1"⟩, ⟨"Y", "b.pdf", "t2"⟩, ⟨"Z", "c.pdf", "t3"⟩])
      (fun id => id != "Z")
      (some [("X", ⟨"a.pdf", "t0", "tm"⟩)]) "now1").attempts := by
  have h := C2_sync_download_dedup "F" "/data"
    [⟨"X", "a.pdf", "t1"⟩, ⟨"Y", "b.pdf", "t2"⟩, ⟨"Z", "c.pdf", "t3"⟩]
    (fun id => id != "Z")
    [("X", ⟨"a.pdf", "t0", "tm"⟩)] "now1" (by decide) (by decide)
  refine ⟨?_, ?_, ?_⟩
  · exact h.1 ⟨"X", "a.pdf", "t1"⟩ (by decide) (by decide)
  · exact (h.2.1 ⟨"Y", "b.pdf", "t2"⟩ (by decide) (by decide) (by decide)).1
  · exact (h.2.2 ⟨"Z", "c.pdf", "t3"⟩ (by decide) (by decide) (by decide)).1

/-- Claim C3: a sync call leaves the ledger file unchanged unless at
least one new file was downloaded, in which case it is rewritten exactly
once at the end; an empty `folderId` is an immediate no-op with no
listing, downloads, or ledger write; an empty listing triggers only the
logging diagnostic cascade with no download or ledger change. -/
theorem C3_sync_ledger_frame (folderId dd : String)
    (listing : Except String (List RemoteFile)) (dlOk : String → Bool)
    (led0opt : Option Ledger) (now : String) :
    (folderId = "" →
      syncDriveFiles folderId dd listing dlOk led0opt now =
        { listedPrimary := false, diagnosticsRun := false, downloads := [],
          attempts := [], ledgerWrites := 0, ledgerOnDisk := led0opt }) ∧
    (syncDriveFiles folderId dd listing dlOk led0opt now).ledgerWrites ≤ 1 ∧
    ((syncDriveFiles folderId dd listing dlOk led0opt now).ledgerWrites = 0 ↔
      (syncDriveFiles folderId dd listing dlOk led0opt now).downloads = []) ∧
    ((syncDriveFiles folderId dd listing dlOk led0opt now).ledgerWrites = 0 →
      (syncDriveFiles folderId dd listing dlOk led0opt now).ledgerOnDisk =
        led0opt) ∧
    (¬folderId = "" → listing = .ok [] →
      (syncDriveFiles folderId dd listing dlOk led0opt now).diagnosticsRun =
          true ∧
      (syncDriveFiles folderId dd listing dlOk led0opt now).downloads = [] ∧
      (syncDriveFiles folderId dd listing dlOk led0opt now).ledgerWrites = 0 ∧
      (syncDriveFiles folderId dd listing dlOk led0opt now).ledgerOnDisk =
        led0opt) := by
  by_cases hfolder : folderId = ""
  · refine ⟨fun _ => by simp [syncDriveFiles, hfolder], ?_, ?_, ?_, ?_⟩
    · simp [syncDriveFiles, hfolder]
    · simp [syncDriveFiles, hfolder]
    · simp [syncDriveFiles, hfolder]
    · intro hcontra; exact absurd hfolder hcontra
  · cases listing with
    | error e =>
      refine ⟨fun hc => absurd hc hfolder, ?_, ?_, ?_, ?_⟩
      · simp [syncDriveFiles, hfolder]
      · simp [syncDriveFiles, hfolder]
      · simp [syncDriveFiles, hfolder]
      · intro _ hok
        exact absurd hok (by simp)
    | ok files =>
      cases files with
      | nil =>
        refine ⟨fun hc => absurd hc hfolder, ?_, ?_, ?_, ?_⟩
        · simp [syncDriveFiles, hfolder, List.isEmpty]
        · simp [syncDriveFiles, hfolder, List.isEmpty]
        · simp [syncDriveFiles, hfolder, List.isEmpty]
        · intro _ _
          simp [syncDriveFiles, hfolder, List.isEmpty]
      | cons f rest =>
        have hne : f :: rest ≠ ([] : List RemoteFile) := by simp
        have hrun := syncDriveFiles_run_eq folderId dd (f :: rest) dlOk
          led0opt now hfolder hne
        by_cases hpos :
            (syncLoop dd dlOk now (f :: rest) (led0opt.getD [])).newFilesCount
              > 0
        · rw [if_pos hpos] at hrun
          have hlen := syncLoop_newFilesCount dd dlOk now (f :: rest)
            (led0opt.getD [])
          have hdlne : (syncLoop dd dlOk now (f :: rest)
              (led0opt.getD [])).downloads ≠ [] := by
            intro hnil
            rw [hlen, hnil] at hpos
            simp at hpos
          refine ⟨fun hc => absurd hc hfolder, ?_, ?_, ?_, ?_⟩
          · rw [hrun]
          · rw [hrun]
            simp only
            constructor
            · intro h10; exact absurd h10 (by simp)
            · intro hdl; exact absurd hdl hdlne
          · rw [hrun]
            intro h10
            exact absurd h10 (by simp)
          · intro _ hok
            have : f :: rest = ([] : List RemoteFile) :=
              (Except.ok.inj hok)
            exact absurd this hne
        · rw [if_neg hpos] at hrun
          have hlen := syncLoop_newFilesCount dd dlOk now (f :: rest)
            (led0opt.getD [])
          have hdlnil : (syncLoop dd dlOk now (f :: rest)
              (led0opt.getD [])).downloads = [] := by
            have h0 : (syncLoop dd dlOk now (f :: rest)
                (led0opt.getD [])).newFilesCount = 0 := Nat.eq_zero_of_not_pos hpos
            rw [hlen] at h0
            exact List.eq_nil_of_length_eq_zero h0
          refine ⟨fun hc => absurd hc hfolder, ?_, ?_, ?_, ?_⟩
          · rw [hrun]
            exact Nat.zero_le 1
          · rw [hrun]
            constructor
            · intro _
              exact hdlnil
            · intro _
              rfl
          · rw [hrun]
            intro _
            rfl
          · intro _ hok
            have : f :: rest = ([] : List RemoteFile) :=
              (Except.ok.inj hok)
            exact absurd this hne

/-- Concrete instantiation of C3: the empty-folder no-op and the
empty-listing diagnostic case. -/
theorem C3_sync_ledger_frame_witness :
    syncDriveFiles "" "/data" (.ok []) (fun _ => true)
        (some [("X", ⟨"a.pdf", "t0", "tm"⟩)]) "now1" =
      { listedPrimary := false, diagnosticsRun := false, downloads := [],
        attempts := [], ledgerWrites := 0,
        ledgerOnDisk := some [("X", ⟨"a.pdf", "t0", "tm"⟩)] } ∧
    (syncDriveFiles "F" "/data" (.ok []) (fun _ => true)
        (some []) "now1").diagnosticsRun = true ∧
    (syncDriveFiles "F" "/data" (.ok []) (fun _ => true)
        (some []) "now1").ledgerWrites = 0 := by
  have h1 := C3_sync_ledger_frame "" "/data" (.ok []) (fun _ => true)
    (some [("X", ⟨"a.pdf", "t0", "tm"⟩)]) "now1"
  have h2 := C3_sync_ledger_frame "F" "/data" (.ok []) (fun _ => true)
    (some []) "now1"
  refine ⟨h1.1 rfl, ?_, ?_⟩
  · exact (h2.2.2.2.2 (by decide) rfl).1
  · exact (h2.2.2.2.2 (by decide) rfl).2.2.1

/-! ## Lemmas about the orchestrator -/

theorem generateAnalysis_no_key (aiGenerate : String → Except String String)
    (prompt : String) :
    generateAnalysis none aiGenerate prompt = (missingKeyMsg, 0, []) := rfl

theorem generateAnalysis_ai_ok (k : String)
    (aiGenerate : String → Except String String) (prompt a : String)
    (h : aiGenerate prompt = .ok a) :
    generateAnalysis (some k) aiGenerate prompt = (a, 1, [prompt]) := by
  simp [generateAnalysis, h]

theorem generateAnalysis_ai_error (k : String)
    (aiGenerate : String → Except String String) (prompt e : String)
    (h : aiGenerate prompt = .error e) :
    generateAnalysis (some k) aiGenerate prompt =
      ("Error generating AI analysis: " ++ e, 1, [prompt]) := by
  simp [generateAnalysis, h]

theorem generateAnalysis_some_snd (k : String)
    (aiGenerate : String → Except String String) (prompt : String) :
    (generateAnalysis (some k) aiGenerate prompt).2 = (1, [prompt]) := by
  cases h : aiGenerate prompt with
  | ok a => simp [generateAnalysis, h]
  | error e => simp [generateAnalysis, h]

theorem processPDF_cache_hit (filePath : String) (env : Env)
    (pdfExtract : Bytes → Except String String)
    (aiGenerate : String → Except String String) (now : Nat)
    (st : ServerState) (r : DocRecord)
    (h : lookupA st.fs (filePath ++ ".json") = some (Bytes.jsonRecord r)) :
    processPDF filePath env pdfExtract aiGenerate now st =
      { st :=
          { st with
            processedFiles :=
              updateA st.processedFiles (basename filePath) r },
        extractionCalls := 0, aiCalls := 0, promptsSent := [],
        driveUploads := [] } := by
  simp [processPDF, h]

theorem processPDF_cache_none (filePath : String) (env : Env)
    (pdfExtract : Bytes → Except String String)
    (aiGenerate : String → Except String String) (now : Nat)
    (st : ServerState)
    (h : lookupA st.fs (filePath ++ ".json") = none) :
    processPDF filePath env pdfExtract aiGenerate now st =
      processPDFBody filePath env pdfExtract aiGenerate now st := by
  simp [processPDF, h]

theorem processPDF_cache_corrupt (filePath : String) (env : Env)
    (pdfExtract : Bytes → Except String String)
    (aiGenerate : String → Except String String) (now : Nat)
    (st : ServerState)
    (h : lookupA st.fs (filePath ++ ".json") = some Bytes.corrupt) :
    processPDF filePath env pdfExtract aiGenerate now st =
      processPDFBody filePath env pdfExtract aiGenerate now st := by
  simp [processPDF, h]

theorem processPDFBody_extract_ok (filePath : String) (env : Env)
    (pdfExtract : Bytes → Except String String)
    (aiGenerate : String → Except String String) (now : Nat)
    (st : ServerState) (b : Bytes) (text : String)
    (hb : lookupA st.fs filePath = some b)
    (htext : pdfExtract b = .ok text) :
    processPDFBody filePath env pdfExtract aiGenerate now st =
      { st :=
          { processedFiles := updateA st.processedFiles (basename filePath)
              (pdfResultRecord filePath env aiGenerate now text),
            fs := updateA st.fs (filePath ++ ".json")
              (Bytes.jsonRecord
                (pdfResultRecord filePath env aiGenerate now text)) },
        extractionCalls := 1,
        aiCalls := (generateAnalysis env.GEMINI_API_KEY aiGenerate
          (pdfPrompt (jsSubstring text 20000))).2.1,
        promptsSent := (generateAnalysis env.GEMINI_API_KEY aiGenerate
          (pdfPrompt (jsSubstring text 20000))).2.2,
        driveUploads :=
          if env.DRIVE_FOLDER_ID.isSome then [filePath ++ ".json"]
          else [] } := by
  simp [processPDFBody, hb, htext, pdfResultRecord]

theorem processURL_fetch_ok (url : String) (env : Env)
    (fetchPage : String → Except String String)
    (domBodyText : String → String)
    (aiGenerate : String → Except String String) (now : Nat)
    (st : ServerState) (html : String)
    (h : fetchPage url = .ok html) :
    processURL url env fetchPage domBodyText aiGenerate now st =
      .ok
        { st :=
            { st with
              processedFiles :=
                updateA st.processedFiles url
                  (urlResultRecord url env aiGenerate now
                    (jsTrim (collapseWs (domBodyText html)))) },
          extractionCalls := 1,
          aiCalls := (generateAnalysis env.GEMINI_API_KEY aiGenerate
            (urlPrompt url (jsSubstring
              (jsTrim (collapseWs (domBodyText html))) 20000))).2.1,
          promptsSent := (generateAnalysis env.GEMINI_API_KEY aiGenerate
            (urlPrompt url (jsSubstring
              (jsTrim (collapseWs (domBodyText html))) 20000))).2.2,
          driveUploads := [] } := by
  simp [processURL, h, urlResultRecord]

/-! ## Claim theorems: orchestrator -/

/-- Claim C1: when the sidecar cache file exists and parses, `processPDF`
loads the parsed record into the in-memory map under the file basename
and returns with zero extraction and analysis calls; a second invocation
on the same unchanged source file, whose first invocation wrote the
sidecar, performs zero extraction/analysis calls (and leaves the state
fixed); a sidecar that fails to parse is logged and the document is
fully re-processed (the run equals the full processing body). -/
theorem C1_cache_load_and_idempotence (filePath : String) (env : Env)
    (pdfExtract : Bytes → Except String String)
    (aiGenerate : String → Except String String)
    (now now2 : Nat) (st : ServerState) :
    (∀ r, lookupA st.fs (filePath ++ ".json") = some (Bytes.jsonRecord r) →
      processPDF filePath env pdfExtract aiGenerate now st =
        { st :=
            { st with
              processedFiles :=
                updateA st.processedFiles (basename filePath) r },
          extractionCalls := 0, aiCalls := 0, promptsSent := [],
          driveUploads := [] }) ∧
    (lookupA st.fs (filePath ++ ".json") = none →
      ∀ b text, lookupA st.fs filePath = some b →
        pdfExtract b = .ok text →
        (processPDF filePath env pdfExtract aiGenerate now2
            (processPDF filePath env pdfExtract aiGenerate now st).st).st =
          (processPDF filePath env pdfExtract aiGenerate now st).st ∧
        (processPDF filePath env pdfExtract aiGenerate now2
            (processPDF filePath env pdfExtract aiGenerate now st).st).extractionCalls
          = 0 ∧
        (processPDF filePath env pdfExtract aiGenerate now2
            (processPDF filePath env pdfExtract aiGenerate now st).st).aiCalls
          = 0) ∧
    (lookupA st.fs (filePath ++ ".json") = some Bytes.corrupt →
      processPDF filePath env pdfExtract aiGenerate now st =
        processPDFBody filePath env pdfExtract aiGenerate now st) := by
  refine ⟨?_, ?_, ?_⟩
  · intro r h
    exact processPDF_cache_hit filePath env pdfExtract aiGenerate now st r h
  · intro hnone b text hb htext
    rw [processPDF_cache_none filePath env pdfExtract aiGenerate now st hnone,
      processPDFBody_extract_ok filePath env pdfExtract aiGenerate now st
        b text hb htext]
    have hhit :
        lookupA
          (updateA st.fs (filePath ++ ".json")
            (Bytes.jsonRecord (pdfResultRecord filePath env aiGenerate now
              text)))
          (filePath ++ ".json") =
        some (Bytes.jsonRecord
          (pdfResultRecord filePath env aiGenerate now text)) :=
      lookupA_updateA_self _ _ _
    rw [processPDF_cache_hit filePath env pdfExtract aiGenerate now2 _ _
      (by exact hhit)]
    refine ⟨?_, rfl, rfl⟩
    simp [updateA_updateA_same]
  · intro h
    exact processPDF_cache_corrupt filePath env pdfExtract aiGenerate now st h

/-- Concrete instantiation of C1: a PDF with no sidecar is processed
once (writing the sidecar), the second invocation does no extraction or
analysis and leaves the state fixed; a parseable sidecar is loaded as-is
with zero calls; a corrupt sidecar falls through to the full body. -/
theorem C1_cache_load_and_idempotence_witness :
    ((processPDF "doc.pdf" { GEMINI_API_KEY := none, DRIVE_FOLDER_ID := none }
        (fun _ => .ok "hello") (fun _ => .error "down") 2
        (processPDF "doc.pdf"
          { GEMINI_API_KEY := none, DRIVE_FOLDER_ID := none }
          (fun _ => .ok "hello") (fun _ => .error "down") 1
          { processedFiles := [],
            fs := [("doc.pdf", Bytes.pdfBytes "raw")] }).st).extractionCalls
      = 0) ∧
    ((processPDF "doc.pdf" { GEMINI_API_KEY := none, DRIVE_FOLDER_ID := none }
        (fun _ => .ok "hello") (fun _ => .error "down") 2
        (processPDF "doc.pdf"
          { GEMINI_API_KEY := none, DRIVE_FOLDER_ID := none }
          (fun _ => .ok "hello") (fun _ => .error "down") 1
          { processedFiles := [],
            fs := [("doc.pdf", Bytes.pdfBytes "raw")] }).st).aiCalls = 0) ∧
    processPDF "doc.pdf" { GEMINI_API_KEY := none, DRIVE_FOLDER_ID := none }
        (fun _ => .ok "hello") (fun _ => .error "down") 1
        { processedFiles := [],
          fs := [("doc.pdf.json", Bytes.corrupt)] } =
      processPDFBody "doc.pdf"
        { GEMINI_API_KEY := none, DRIVE_FOLDER_ID := none }
        (fun _ => .ok "hello") (fun _ => .error "down") 1
        { processedFiles := [],
          fs := [("doc.pdf.json", Bytes.corrupt)] } := by
  have h := C1_cache_load_and_idempotence "doc.pdf"
    { GEMINI_API_KEY := none, DRIVE_FOLDER_ID := none }
    (fun _ => .ok "hello") (fun _ => .error "down") 1 2
    { processedFiles := [], fs := [("doc.pdf", Bytes.pdfBytes "raw")] }
  have h2 := C1_cache_load_and_idempotence "doc.pdf"
    { GEMINI_API_KEY := none, DRIVE_FOLDER_ID := none }
    (fun _ => .ok "hello") (fun _ => .error "down") 1 2
    { processedFiles := [], fs := [("doc.pdf.json", Bytes.corrupt)] }
  have hidem := h.2.1 (by decide) (Bytes.pdfBytes "raw") "hello"
    (by decide) rfl
  exact ⟨hidem.2.1, hidem.2.2, h2.2.2 (by decide)⟩

/-- Claim C4: the Analysis step never raises.  With no API key
configured, a processed document's `analysis` field is the literal
missing-key placeholder and no Gemini call is made; with a key
configured and a throwing Gemini call, `analysis` is the placeholder
embedding the error message, for both the PDF and the URL paths. -/
theorem C4_analysis_never_raises (filePath url : String) (env : Env)
    (pdfExtract : Bytes → Except String String)
    (fetchPage : String → Except String String)
    (domBodyText : String → String)
    (aiGenerate : String → Except String String)
    (now : Nat) (st : ServerState) :
    (env.GEMINI_API_KEY = none →
      lookupA st.fs (filePath ++ ".json") = none →
      ∀ b text, lookupA st.fs filePath = some b →
        pdfExtract b = .ok text →
        (processPDF filePath env pdfExtract aiGenerate now st).aiCalls = 0 ∧
        ∃ rec,
          lookupA (processPDF filePath env pdfExtract aiGenerate now
            st).st.processedFiles (basename filePath) = some rec ∧
          rec.analysis =
            "API Key missing. Please add GEMINI_API_KEY to .env file.") ∧
    (∀ k, env.GEMINI_API_KEY = some k →
      lookupA st.fs (filePath ++ ".json") = none →
      ∀ b text msg, lookupA st.fs filePath = some b →
        pdfExtract b = .ok text →
        aiGenerate (pdfPrompt (jsSubstring text 20000)) = .error msg →
        ∃ rec,
          lookupA (processPDF filePath env pdfExtract aiGenerate now
            st).st.processedFiles (basename filePath) = some rec ∧
          rec.analysis = "Error generating AI analysis: " ++ msg) ∧
    (env.GEMINI_API_KEY = none →
      ∀ html, fetchPage url = .ok html →
      ∃ out,
        processURL url env fetchPage domBodyText aiGenerate now st =
          .ok out ∧
        out.aiCalls = 0 ∧
        ∃ rec, lookupA out.st.processedFiles url = some rec ∧
          rec.analysis =
            "API Key missing. Please add GEMINI_API_KEY to .env file.") ∧
    (∀ k, env.GEMINI_API_KEY = some k →
      ∀ html msg, fetchPage url = .ok html →
        aiGenerate (urlPrompt url (jsSubstring
          (jsTrim (collapseWs (domBodyText html))) 20000)) = .error msg →
        ∃ out,
          processURL url env fetchPage domBodyText aiGenerate now st =
            .ok out ∧
          ∃ rec, lookupA out.st.processedFiles url = some rec ∧
            rec.analysis = "Error generating AI analysis: " ++ msg) := by
  refine ⟨?_, ?_, ?_, ?_⟩
  · intro hkey hnone b text hb htext
    rw [processPDF_cache_none filePath env pdfExtract aiGenerate now st hnone,
      processPDFBody_extract_ok filePath env pdfExtract aiGenerate now st
        b text hb htext]
    refine ⟨?_, pdfResultRecord filePath env aiGenerate now text,
      lookupA_updateA_self _ _ _, ?_⟩
    · simp [hkey, generateAnalysis_no_key]
    · simp [pdfResultRecord, hkey, generateAnalysis_no_key, missingKeyMsg]
  · intro k hkey hnone b text msg hb htext hmsg
    rw [processPDF_cache_none filePath env pdfExtract aiGenerate now st hnone,
      processPDFBody_extract_ok filePath env pdfExtract aiGenerate now st
        b text hb htext]
    refine ⟨pdfResultRecord filePath env aiGenerate now text,
      lookupA_updateA_self _ _ _, ?_⟩
    simp [pdfResultRecord, hkey, generateAnalysis_ai_error k aiGenerate _ msg hmsg]
  · intro hkey html hfetch
    rw [processURL_fetch_ok url env fetchPage domBodyText aiGenerate now st
      html hfetch]
    refine ⟨_, rfl, ?_, urlResultRecord url env aiGenerate now
      (jsTrim (collapseWs (domBodyText html))),
      lookupA_updateA_self _ _ _, ?_⟩
    · simp [hkey, generateAnalysis_no_key]
    · simp [urlResultRecord, hkey, generateAnalysis_no_key, missingKeyMsg]
  · intro k hkey html msg hfetch hmsg
    rw [processURL_fetch_ok url env fetchPage domBodyText aiGenerate now st
      html hfetch]
    refine ⟨_, rfl, urlResultRecord url env aiGenerate now
      (jsTrim (collapseWs (domBodyText html))),
      lookupA_updateA_self _ _ _, ?_⟩
    simp [urlResultRecord, hkey,
      generateAnalysis_ai_error k aiGenerate _ msg hmsg]

/-- Concrete instantiation of C4: with no key the stored analysis is the
missing-key placeholder and no Gemini call happens; with a key and a
throwing Gemini call the stored analysis embeds the error message. -/
theorem C4_analysis_never_raises_witness :
    ((processPDF "doc.pdf" { GEMINI_API_KEY := none, DRIVE_FOLDER_ID := none }
        (fun _ => .ok "hello") (fun _ => .ok "sum") 1
        { processedFiles := [],
          fs := [("doc.pdf", Bytes.pdfBytes "raw")] }).aiCalls = 0) ∧
    (∃ rec,
      lookupA (processPDF "doc.pdf"
        { GEMINI_API_KEY := none, DRIVE_FOLDER_ID := none }
        (fun _ => .ok "hello") (fun _ => .ok "sum") 1
        { processedFiles := [],
          fs := [("doc.pdf", Bytes.pdfBytes "raw")] }).st.processedFiles
        "doc.pdf" = some rec ∧
      rec.analysis =
        "API Key missing. Please add GEMINI_API_KEY to .env file.") ∧
    (∃ rec,
      lookupA (processPDF "doc.pdf"
        { GEMINI_API_KEY := some "K", DRIVE_FOLDER_ID := none }
        (fun _ => .ok "hello") (fun _ => .error "quota") 1
        { processedFiles := [],
          fs := [("doc.pdf", Bytes.pdfBytes "raw")] }).st.processedFiles
        "doc.pdf" = some rec ∧
      rec.analysis = "Error generating AI analysis: " ++ "quota") := by
  have h1 := C4_analysis_never_raises "doc.pdf" "http://x"
    { GEMINI_API_KEY := none, DRIVE_FOLDER_ID := none }
    (fun _ => .ok "hello") (fun _ => .ok "<html>") (fun _ => "b")
    (fun _ => .ok "sum") 1
    { processedFiles := [], fs := [("doc.pdf", Bytes.pdfBytes "raw")] }
  have h2 := C4_analysis_never_raises "doc.pdf" "http://x"
    { GEMINI_API_KEY := some "K", DRIVE_FOLDER_ID := none }
    (fun _ => .ok "hello") (fun _ => .ok "<html>") (fun _ => "b")
    (fun _ => .error "quota") 1
    { processedFiles := [], fs := [("doc.pdf", Bytes.pdfBytes "raw")] }
  have ha := h1.1 rfl (by decide) (Bytes.pdfBytes "raw") "hello"
    (by decide) rfl
  have hb := h2.2.1 "K" rfl (by decide) (Bytes.pdfBytes "raw") "hello"
    "quota" (by decide) rfl rfl
  have hname : basename "doc.pdf" = "doc.pdf" := by decide
  rw [hname] at ha hb
  exact ⟨ha.1, ha.2, hb⟩

/-- Claim C6: `processURL` never consults or writes any sidecar cache
file: on every invocation it fetches, extracts and analyzes anew (a
second consecutive call also performs exactly one extraction), stores
the record in the in-memory map keyed by the URL with `type = "url"`,
and writes no file to disk (the filesystem component of the state is
returned unchanged, and no Drive upload is attempted). -/
theorem C6_url_path_never_caches (url : String) (env : Env)
    (fetchPage : String → Except String String)
    (domBodyText : String → String)
    (aiGenerate : String → Except String String)
    (now now2 : Nat) (st : ServerState) :
    ∀ html, fetchPage url = .ok html →
      ∃ out,
        processURL url env fetchPage domBodyText aiGenerate now st =
          .ok out ∧
        out.st.fs = st.fs ∧
        out.driveUploads = [] ∧
        out.extractionCalls = 1 ∧
        (∃ rec, out.st.processedFiles = updateA st.processedFiles url rec ∧
          rec.name = url ∧ rec.type = some "url") ∧
        ∃ out2,
          processURL url env fetchPage domBodyText aiGenerate now2 out.st =
            .ok out2 ∧
          out2.extractionCalls = 1 ∧
          out2.st.fs = st.fs := by
  intro html hfetch
  rw [processURL_fetch_ok url env fetchPage domBodyText aiGenerate now st
    html hfetch]
  refine ⟨_, rfl, rfl, rfl, rfl, ⟨_, rfl, rfl, rfl⟩, ?_⟩
  rw [processURL_fetch_ok url env fetchPage domBodyText aiGenerate now2 _
    html hfetch]
  exact ⟨_, rfl, rfl, rfl⟩

/-- Concrete instantiation of C6: two consecutive invocations on the
same URL each perform one extraction and leave the filesystem alone. -/
theorem C6_url_path_never_caches_witness :
    ∃ out,
      processURL "http://x" { GEMINI_API_KEY := none, DRIVE_FOLDER_ID := none }
        (fun _ => .ok "<html>") (fun _ => "body") (fun _ => .ok "sum") 1
        { processedFiles := [], fs := [("doc.pdf", Bytes.pdfBytes "raw")] } =
        .ok out ∧
      out.st.fs = [("doc.pdf", Bytes.pdfBytes "raw")] ∧
      out.extractionCalls = 1 ∧
      ∃ out2,
        processURL "http://x"
          { GEMINI_API_KEY := none, DRIVE_FOLDER_ID := none }
          (fun _ => .ok "<html>") (fun _ => "body") (fun _ => .ok "sum") 2
          out.st = .ok out2 ∧
        out2.extractionCalls = 1 := by
  have h := C6_url_path_never_caches "http://x"
    { GEMINI_API_KEY := none, DRIVE_FOLDER_ID := none }
    (fun _ => .ok "<html>") (fun _ => "body") (fun _ => .ok "sum") 1 2
    { processedFiles := [], fs := [("doc.pdf", Bytes.pdfBytes "raw")] }
    "<html>" rfl
  obtain ⟨out, hout, hfs, _, hext, _, out2, hout2, hext2, _⟩ := h
  exact ⟨out, hout, hfs, hext, out2, hout2, hext2⟩

/-- Claim C7: for a document whose extraction succeeds, `textPreview` is
the first 200 characters of the extracted text followed by the literal
`...` (appended even when the text is shorter than 200 characters, the
prefix then being the whole text), and the prompt sent to the Gemini
endpoint embeds the extracted text truncated to its first 20000
characters, on both the PDF and the URL paths. -/
theorem C7_preview_and_truncation (filePath url : String) (env : Env)
    (pdfExtract : Bytes → Except String String)
    (fetchPage : String → Except String String)
    (domBodyText : String → String)
    (aiGenerate : String → Except String String)
    (now : Nat) (st : ServerState) :
    (lookupA st.fs (filePath ++ ".json") = none →
      ∀ b text, lookupA st.fs filePath = some b →
        pdfExtract b = .ok text →
        (∃ rec,
          lookupA (processPDF filePath env pdfExtract aiGenerate now
            st).st.processedFiles (basename filePath) = some rec ∧
          rec.textPreview = jsSubstring text 200 ++ "..." ∧
          (text.length ≤ 200 → rec.textPreview = text ++ "...")) ∧
        (∀ k, env.GEMINI_API_KEY = some k →
          (processPDF filePath env pdfExtract aiGenerate now st).promptsSent
            = [pdfPrompt (jsSubstring text 20000)])) ∧
    (∀ html, fetchPage url = .ok html →
      ∃ out,
        processURL url env fetchPage domBodyText aiGenerate now st =
          .ok out ∧
        ∃ rec, lookupA out.st.processedFiles url = some rec ∧
          rec.textPreview =
            jsSubstring (jsTrim (collapseWs (domBodyText html))) 200
              ++ "..." ∧
          ((jsTrim (collapseWs (domBodyText html))).length ≤ 200 →
            rec.textPreview =
              jsTrim (collapseWs (domBodyText html)) ++ "...") ∧
          (∀ k, env.GEMINI_API_KEY = some k →
            out.promptsSent =
              [urlPrompt url (jsSubstring
                (jsTrim (collapseWs (domBodyText html))) 20000)])) := by
  constructor
  · intro hnone b text hb htext
    rw [processPDF_cache_none filePath env pdfExtract aiGenerate now st hnone,
      processPDFBody_extract_ok filePath env pdfExtract aiGenerate now st
        b text hb htext]
    constructor
    · refine ⟨pdfResultRecord filePath env aiGenerate now text,
        lookupA_updateA_self _ _ _, rfl, ?_⟩
      intro hlen
      simp [pdfResultRecord, jsSubstring_of_length_le text 200 hlen]
    · intro k hkey
      simp only [hkey]
      have := generateAnalysis_some_snd k aiGenerate
        (pdfPrompt (jsSubstring text 20000))
      simp [Prod.ext_iff] at this
      exact this.2
  · intro html hfetch
    rw [processURL_fetch_ok url env fetchPage domBodyText aiGenerate now st
      html hfetch]
    refine ⟨_, rfl, urlResultRecord url env aiGenerate now
      (jsTrim (collapseWs (domBodyText html))),
      lookupA_updateA_self _ _ _, rfl, ?_, ?_⟩
    · intro hlen
      simp [urlResultRecord, jsSubstring_of_length_le _ 200 hlen]
    · intro k hkey
      simp only [hkey]
      have := generateAnalysis_some_snd k aiGenerate
        (urlPrompt url (jsSubstring
          (jsTrim (collapseWs (domBodyText html))) 20000))
      simp [Prod.ext_iff] at this
      exact this.2

/-- Concrete instantiation of C7: a 5-character extraction yields a
preview equal to the whole text plus the ellipsis, and the Gemini prompt
embeds the (un)truncated text. -/
theorem C7_preview_and_truncation_witness :
    (∃ rec,
      lookupA (processPDF "doc.pdf"
        { GEMINI_API_KEY := some "K", DRIVE_FOLDER_ID := none }
        (fun _ => .ok "hello") (fun _ => .ok "sum") 1
        { processedFiles := [],
          fs := [("doc.pdf", Bytes.pdfBytes "raw")] }).st.processedFiles
        "doc.pdf" = some rec ∧
      rec.textPreview = "hello" ++ "...") ∧
    (processPDF "doc.pdf"
      { GEMINI_API_KEY := some "K", DRIVE_FOLDER_ID := none }
      (fun _ => .ok "hello") (fun _ => .ok "sum") 1
      { processedFiles := [],
        fs := [("doc.pdf", Bytes.pdfBytes "raw")] }).promptsSent =
      [pdfPrompt (jsSubstring "hello" 20000)] := by
  have h := C7_preview_and_truncation "doc.pdf" "http://x"
    { GEMINI_API_KEY := some "K", DRIVE_FOLDER_ID := none }
    (fun _ => .ok "hello") (fun _ => .ok "<html>") (fun _ => "b")
    (fun _ => .ok "sum") 1
    { processedFiles := [], fs := [("doc.pdf", Bytes.pdfBytes "raw")] }
  have hp := h.1 (by decide) (Bytes.pdfBytes "raw") "hello" (by decide) rfl
  have hname : basename "doc.pdf" = "doc.pdf" := by decide
  obtain ⟨⟨rec, hrec, _, hshort⟩, hprompt⟩ := hp
  rw [hname] at hrec
  exact ⟨⟨rec, hrec, hshort (by decide)⟩, hprompt "K" rfl⟩

/-! ## Lemmas about the delete handler -/

theorem deleteHandler_st (filename dataDir : String) (env : Env)
    (deleteFromDrive : String → Except String Bool) (st : ServerState) :
    (deleteHandler filename dataDir env deleteFromDrive st).st =
      { processedFiles := removeIfPresent st.processedFiles filename,
        fs := removeIfPresent
          (removeIfPresent st.fs (dataDir ++ "/" ++ filename))
          (dataDir ++ "/" ++ (filename ++ ".json")) } := by
  unfold deleteHandler
  cases hfol : env.DRIVE_FOLDER_ID with
  | none => rfl
  | some fid =>
    cases hd1 : deleteFromDrive filename with
    | error e1 => simp
    | ok b1 =>
      cases hd2 : deleteFromDrive (filename ++ ".json") with
      | error e2 => simp
      | ok b2 => simp

theorem deleteHandler_success (filename dataDir : String) (env : Env)
    (deleteFromDrive : String → Except String Bool) (st : ServerState)
    (hok : env.DRIVE_FOLDER_ID = none ∨
      ((∃ b1, deleteFromDrive filename = Except.ok b1) ∧
       (∃ b2, deleteFromDrive (filename ++ ".json") = Except.ok b2))) :
    (deleteHandler filename dataDir env deleteFromDrive st).status = 200 ∧
    (deleteHandler filename dataDir env deleteFromDrive st).success = true ∧
    (env.DRIVE_FOLDER_ID.isSome →
      (deleteHandler filename dataDir env deleteFromDrive st).driveDeletes =
        [filename, filename ++ ".json"]) := by
  cases hfol : env.DRIVE_FOLDER_ID with
  | none =>
    refine ⟨?_, ?_, ?_⟩ <;> simp [deleteHandler, hfol]
  | some fid =>
    rcases hok with hnone | ⟨⟨b1, hb1⟩, ⟨b2, hb2⟩⟩
    · rw [hfol] at hnone
      cases hnone
    · refine ⟨?_, ?_, ?_⟩ <;> simp [deleteHandler, hfol, hb1, hb2]

/-! ## Claim theorems: delete endpoint -/

/-- Claim C5: after a successful delete of `D`, the in-memory map has no
entry for `D`, the local source file `DATA_DIR/D` and sidecar
`DATA_DIR/D.json` no longer exist, a remote delete is issued for both
`D` and `D.json` whenever a remote folder is configured, and the
response is HTTP 200 with success true; an error thrown during deletion
yields HTTP 500 with success false and a message embedding the error. -/
theorem C5_delete_completeness (filename dataDir : String) (env : Env)
    (deleteFromDrive : String → Except String Bool) (st : ServerState) :
    ((env.DRIVE_FOLDER_ID = none ∨
        ((∃ b1, deleteFromDrive filename = Except.ok b1) ∧
         (∃ b2, deleteFromDrive (filename ++ ".json") = Except.ok b2))) →
      lookupA (deleteHandler filename dataDir env deleteFromDrive
        st).st.processedFiles filename = none ∧
      lookupA (deleteHandler filename dataDir env deleteFromDrive st).st.fs
        (dataDir ++ "/" ++ filename) = none ∧
      lookupA (deleteHandler filename dataDir env deleteFromDrive st).st.fs
        (dataDir ++ "/" ++ (filename ++ ".json")) = none ∧
      (deleteHandler filename dataDir env deleteFromDrive st).status = 200 ∧
      (deleteHandler filename dataDir env deleteFromDrive st).success
        = true ∧
      (env.DRIVE_FOLDER_ID.isSome →
        (deleteHandler filename dataDir env deleteFromDrive st).driveDeletes
          = [filename, filename ++ ".json"])) ∧
    (∀ e, env.DRIVE_FOLDER_ID.isSome →
      deleteFromDrive filename = Except.error e →
      (deleteHandler filename dataDir env deleteFromDrive st).status = 500 ∧
      (deleteHandler filename dataDir env deleteFromDrive st).success
        = false ∧
      (deleteHandler filename dataDir env deleteFromDrive st).message =
        "Error deleting file: " ++ e) ∧
    (∀ e b, env.DRIVE_FOLDER_ID.isSome →
      deleteFromDrive filename = Except.ok b →
      deleteFromDrive (filename ++ ".json") = Except.error e →
      (deleteHandler filename dataDir env deleteFromDrive st).status = 500 ∧
      (deleteHandler filename dataDir env deleteFromDrive st).success
        = false ∧
      (deleteHandler filename dataDir env deleteFromDrive st).message =
        "Error deleting file: " ++ e) := by
  refine ⟨?_, ?_, ?_⟩
  · intro hok
    have hst := deleteHandler_st filename dataDir env deleteFromDrive st
    have hs := deleteHandler_success filename dataDir env deleteFromDrive
      st hok
    refine ⟨?_, ?_, ?_, hs.1, hs.2.1, hs.2.2⟩
    · rw [hst]
      exact lookupA_removeIfPresent_self _ _
    · rw [hst]
      exact lookupA_removeIfPresent_none _ _ _
        (lookupA_removeIfPresent_self _ _)
    · rw [hst]
      exact lookupA_removeIfPresent_self _ _
  · intro e hsome hde
    cases hfol : env.DRIVE_FOLDER_ID with
    | none => rw [hfol] at hsome; cases hsome
    | some fid => refine ⟨?_, ?_, ?_⟩ <;> simp [deleteHandler, hfol, hde]
  · intro e b hsome hd1 hd2
    cases hfol : env.DRIVE_FOLDER_ID with
    | none => rw [hfol] at hsome; cases hsome
    | some fid =>
      refine ⟨?_, ?_, ?_⟩ <;> simp [deleteHandler, hfol, hd1, hd2]

/-- Concrete instantiation of C5: deleting `doc.pdf` with a configured
remote folder and succeeding remote deletes clears the map and both
local files, issues both remote deletes, and answers 200; a throwing
remote delete answers 500 with the embedded message. -/
theorem C5_delete_completeness_witness :
    (lookupA (deleteHandler "doc.pdf" "/data"
      { GEMINI_API_KEY := none, DRIVE_FOLDER_ID := some "F" }
      (fun _ => Except.ok true)
      { processedFiles :=
          [("doc.pdf", ⟨"doc.pdf", 1, "p...", "a", none⟩)],
        fs := [("/data/doc.pdf", Bytes.pdfBytes "raw"),
               ("/data/doc.pdf.json",
                 Bytes.jsonRecord ⟨"doc.pdf", 1, "p...", "a", none⟩)]
      }).st.processedFiles "doc.pdf" = none) ∧
    (lookupA (deleteHandler "doc.pdf" "/data"
      { GEMINI_API_KEY := none, DRIVE_FOLDER_ID := some "F" }
      (fun _ => Except.ok true)
      { processedFiles :=
          [("doc.pdf", ⟨"doc.pdf", 1, "p...", "a", none⟩)],
        fs := [("/data/doc.pdf", Bytes.pdfBytes "raw"),
               ("/data/doc.pdf.json",
                 Bytes.jsonRecord ⟨"doc.pdf", 1, "p...", "a", none⟩)]
      }).st.fs ("/data" ++ "/" ++ "doc.pdf") = none) ∧
    ((deleteHandler "doc.pdf" "/data"
      { GEMINI_API_KEY := none, DRIVE_FOLDER_ID := some "F" }
      (fun _ => Except.ok true)
      { processedFiles :=
          [("doc.pdf", ⟨"doc.pdf", 1, "p...", "a", none⟩)],
        fs := [("/data/doc.pdf", Bytes.pdfBytes "raw"),
               ("/data/doc.pdf.json",
                 Bytes.jsonRecord ⟨"doc.pdf", 1, "p...", "a", none⟩)]
      }).status = 200) ∧
    ((deleteHandler "doc.pdf" "/data"
      { GEMINI_API_KEY := none, DRIVE_FOLDER_ID := some "F" }
      (fun _ => Except.ok true)
      { processedFiles :=
          [("doc.pdf", ⟨"doc.pdf", 1, "p...", "a", none⟩)],
        fs := [("/data/doc.pdf", Bytes.pdfBytes "raw"),
               ("/data/doc.pdf.json",
                 Bytes.jsonRecord ⟨"doc.pdf", 1, "p...", "a", none⟩)]
      }).driveDeletes = ["doc.pdf", "doc.pdf" ++ ".json"]) ∧
    ((deleteHandler "doc.pdf" "/data"
      { GEMINI_API_KEY := none, DRIVE_FOLDER_ID := some "F" }
      (fun _ => Except.error "network")
      { processedFiles := [], fs := [] }).status = 500) := by
  have h1 := C5_delete_completeness "doc.pdf" "/data"
    { GEMINI_API_KEY := none, DRIVE_FOLDER_ID := some "F" }
    (fun _ => Except.ok true)
    { processedFiles :=
        [("doc.pdf", ⟨"doc.pdf", 1, "p...", "a", none⟩)],
      fs := [("/data/doc.pdf", Bytes.pdfBytes "raw"),
             ("/data/doc.pdf.json",
               Bytes.jsonRecord ⟨"doc.pdf", 1, "p...", "a", none⟩)] }
  have h2 := C5_delete_completeness "doc.pdf" "/data"
    { GEMINI_API_KEY := none, DRIVE_FOLDER_ID := some "F" }
    (fun _ => Except.error "network")
    { processedFiles := [], fs := [] }
  have hs := h1.1 (Or.inr ⟨⟨true, rfl⟩, ⟨true, rfl⟩⟩)
  exact ⟨hs.1, hs.2.1, hs.2.2.2.1, hs.2.2.2.2.2 rfl,
    (h2.2.1 "network" rfl rfl).1⟩

/-- Claim C10: the delete endpoint performs no existence check — for a
filename with no in-memory entry and no local source or sidecar file it
still answers HTTP 200 with success true (when the remote deletes do
not throw or no remote folder is configured), and the response status is
always 200 or 500, never 404. -/
theorem C10_delete_no_existence_check (filename dataDir : String)
    (env : Env) (deleteFromDrive : String → Except String Bool)
    (st : ServerState) :
    ((deleteHandler filename dataDir env deleteFromDrive st).status = 200 ∨
     (deleteHandler filename dataDir env deleteFromDrive st).status
       = 500) ∧
    (lookupA st.processedFiles filename = none →
      lookupA st.fs (dataDir ++ "/" ++ filename) = none →
      lookupA st.fs (dataDir ++ "/" ++ (filename ++ ".json")) = none →
      (env.DRIVE_FOLDER_ID = none ∨
        ((∃ b1, deleteFromDrive filename = Except.ok b1) ∧
         (∃ b2, deleteFromDrive (filename ++ ".json") = Except.ok b2))) →
      (deleteHandler filename dataDir env deleteFromDrive st).status
        = 200 ∧
      (deleteHandler filename dataDir env deleteFromDrive st).success
        = true) := by
  constructor
  · cases hfol : env.DRIVE_FOLDER_ID with
    | none => left; simp [deleteHandler, hfol]
    | some fid =>
      cases hd1 : deleteFromDrive filename with
      | error e1 => right; simp [deleteHandler, hfol, hd1]
      | ok b1 =>
        cases hd2 : deleteFromDrive (filename ++ ".json") with
        | error e2 => right; simp [deleteHandler, hfol, hd1, hd2]
        | ok b2 => left; simp [deleteHandler, hfol, hd1, hd2]
  · intro _ _ _ hok
    have hs := deleteHandler_success filename dataDir env deleteFromDrive
      st hok
    exact ⟨hs.1, hs.2.1⟩

/-- Concrete instantiation of C10: deleting an unknown filename from an
empty state answers 200 with success true. -/
theorem C10_delete_no_existence_check_witness :
    ((deleteHandler "ghost.pdf" "/data"
      { GEMINI_API_KEY := none, DRIVE_FOLDER_ID := none }
      (fun _ => Except.ok false)
      { processedFiles := [], fs := [] }).status = 200) ∧
    ((deleteHandler "ghost.pdf" "/data"
      { GEMINI_API_KEY := none, DRIVE_FOLDER_ID := none }
      (fun _ => Except.ok false)
      { processedFiles := [], fs := [] }).success = true) := by
  have h := C10_delete_no_existence_check "ghost.pdf" "/data"
    { GEMINI_API_KEY := none, DRIVE_FOLDER_ID := none }
    (fun _ => Except.ok false)
    { processedFiles := [], fs := [] }
  exact h.2 rfl rfl rfl (Or.inl rfl)

/-! ## Claim theorems: uploadSummaryToDrive and authenticate -/

/-- Claim C8: `uploadSummaryToDrive` derives the remote summary filename
by stripping the original extension and appending the fixed
`_notebook_summary.txt` suffix, and creates exactly one plain-text
remote entry whose body is the given analysis text; the derivation is a
function of the original name alone, with the same fixed suffix for
every name. -/
theorem C8_upload_summary_name (folderId originalFileName
    analysisText : String)
    (createFile : DriveFileCreate → Except String Unit)
    (hfol : ¬folderId = "")
    (hok : ∀ req, createFile req = Except.ok ()) :
    uploadSummaryToDrive folderId originalFileName analysisText createFile =
      Except.ok
        [{ name := basenameStrip originalFileName (extname originalFileName)
             ++ "_notebook_summary.txt",
           parents := [folderId], mimeType := "text/plain",
           body := analysisText }] := by
  simp [uploadSummaryToDrive, hfol, hok]

/-- Concrete instantiation of C8: `report.pdf` yields exactly one
created entry named `report_notebook_summary.txt` with the analysis as
its plain-text body. -/
theorem C8_upload_summary_name_witness :
    uploadSummaryToDrive "F" "report.pdf" "the summary"
        (fun _ => Except.ok ()) =
      Except.ok
        [{ name := "report_notebook_summary.txt", parents := ["F"],
           mimeType := "text/plain", body := "the summary" }] := by
  rw [C8_upload_summary_name "F" "report.pdf" "the summary"
    (fun _ => Except.ok ()) (by decide) (fun _ => rfl)]
  have hname : basenameStrip "report.pdf" (extname "report.pdf")
      ++ "_notebook_summary.txt" = "report_notebook_summary.txt" := by
    decide
  rw [hname]

/-- Claim C9: when the environment credential blob is present but fails
to parse as JSON, `authenticate` logs the failure and still returns a
client handle, built from an options object carrying neither inline
credentials nor the key-file fallback (only the scopes), so the failure
can only surface on first use of the client. -/
theorem C9_credential_parse_failure (blob : String)
    (jsonParse : String → Except String String) (e : String)
    (hparse : jsonParse blob = Except.error e) :
    (authenticate (some blob) jsonParse).parseErrorLogged = true ∧
    (authenticate (some blob) jsonParse).client.options.credentials
      = none ∧
    (authenticate (some blob) jsonParse).client.options.keyFile = none ∧
    (authenticate (some blob) jsonParse).client.options.scopes = SCOPES := by
  refine ⟨?_, ?_, ?_, ?_⟩ <;> simp [authenticate, hparse]

/-- Concrete instantiation of C9: an unparseable blob still yields a
client, with the parse error logged and no credential source set. -/
theorem C9_credential_parse_failure_witness :
    (authenticate (some "notjson")
      (fun _ => Except.error "Unexpected token")).parseErrorLogged
      = true ∧
    (authenticate (some "notjson")
      (fun _ => Except.error "Unexpected token")).client.options.credentials
      = none ∧
    (authenticate (some "notjson")
      (fun _ => Except.error "Unexpected token")).client.options.keyFile
      = none := by
  have h := C9_credential_parse_failure "notjson"
    (fun _ => Except.error "Unexpected token") "Unexpected token" rfl
  exact ⟨h.1, h.2.1, h.2.2.1⟩

end NotebookPDF
